import Mathlib

/-!
Shallow embedding of the cviz web client (kentamt/cviz) for checking the
specification's claims about the history store, retention-policy resolution,
style resolution, legacy-message normalization, reconnection backoff, and the
pending-command queue.

The embedding follows `src/web/geometry-renderer.js` (history store, style
resolver, colour extraction), `src/web/websocket-manager.js` (both manager
variants concatenated in that file: the GeoJSON-capable variant and the
legacy-only variant with validators), and `src/web/topics-panel.js`.
JavaScript numbers are modelled as `Int` (the claims only exercise integral
values), JavaScript `undefined`-able fields as `Option`, and JavaScript
truthiness (`x || d`, `if (x)`) by explicit helper functions.
-/

/-- JS `x || d` for a possibly-undefined string: `undefined` and `""` are
falsy, everything else is itself. Used for `data.topic || 'default'`. -/
def jsOrStr (o : Option String) (d : String) : String :=
  match o with
  | none => d
  | some s => if s = "" then d else s

/-- JS `x || d` for a possibly-undefined number: `undefined` and `0` are
falsy. Used for `this.historyLimits[topic] || 1` and
`TOPIC_STYLES.default[dataType] || 0xffffff`. -/
def jsOrInt (o : Option Int) (d : Int) : Int :=
  match o with
  | none => d
  | some n => if n = 0 then d else n

/-- Count of occurrences of `x` in a list of optional handles. -/
def occ (x : Option Nat) : List (Option Nat) → Nat
  | [] => 0
  | y :: ys => (if y = x then 1 else 0) + occ x ys

/-- JS `Array.prototype.splice(i, 1)`: removes the element at index `i`
(no-op past the end). -/
def spliceAt {α : Type} : List α → Nat → List α
  | [], _ => []
  | _ :: xs, 0 => xs
  | x :: xs, n + 1 => x :: spliceAt xs n

/-- JS `Array.prototype.indexOf` on a list of optional handles. -/
def jsIndexOf : List (Option Nat) → Option Nat → Option Nat
  | [], _ => none
  | y :: ys, x => if y = x then some 0 else (jsIndexOf ys x).map (· + 1)

/-- Last element of a list of optional handles (`arr[arr.length - 1]`),
`none` on the empty list. -/
def lastElemD : List (Option Nat) → Option Nat
  | [] => none
  | x :: xs => match xs with
    | [] => x
    | y :: ys => lastElemD (y :: ys)

/-- A single hexadecimal digit's value. -/
def hexDigitVal (c : Char) : Option Nat :=
  if '0' ≤ c ∧ c ≤ '9' then some (c.toNat - '0'.toNat)
  else if 'a' ≤ c ∧ c ≤ 'f' then some (c.toNat - 'a'.toNat + 10)
  else if 'A' ≤ c ∧ c ≤ 'F' then some (c.toNat - 'A'.toNat + 10)
  else none

/-- Fold a run of leading hex digits; `none` when the run is empty
(JS `parseInt` yields `NaN` there, which the callers treat as no colour). -/
def parseHexRun (cs : List Char) (acc : Nat) (seen : Bool) : Option Nat :=
  match cs with
  | [] => if seen then some acc else none
  | c :: rest =>
    match hexDigitVal c with
    | some v => parseHexRun rest (16 * acc + v) true
    | none => if seen then some acc else none

/-- JS `parseInt(s, 16)`: an optional `0x`/`0X` prefix is skipped, then the
longest run of hex digits is parsed; an empty run gives `NaN`, modelled as
`none`. (Leading whitespace and signs are not exercised by the claims.) -/
def parseInt16 (s : String) : Option Nat :=
  let cs := s.data
  let cs := match cs with
    | '0' :: 'x' :: rest => rest
    | '0' :: 'X' :: rest => rest
    | l => l
  parseHexRun cs 0 false

/-- JS `s.startsWith(pre)`, on the character lists (the bytewise
`String.startsWith` does not evaluate inside the kernel). -/
def strStartsWith (s pre : String) : Bool :=
  pre.data.isPrefixOf s.data

/-- JS `s.substring(n)`, on the character list. -/
def strDrop (s : String) (n : Nat) : String :=
  ⟨s.data.drop n⟩

/-- Coordinate values as they appear on the wire: either a number or a
nested array. Only the shape matters for the renderer's null-checks. -/
inductive CoordTree : Type where
  | leaf (n : Int) : CoordTree
  | node (children : List CoordTree) : CoordTree

/-- JS truthiness of a coordinates value: the number 0 is falsy, any array
(including `[]`) is truthy. -/
def coordTruthy : CoordTree → Bool
  | .leaf n => n ≠ 0
  | .node _ => true

/-- `Array.isArray(coordinates)` including the undefined case. -/
def isArrC : Option CoordTree → Bool
  | some (.node _) => true
  | _ => false

/-- `coordinates.length` of an array value (0 otherwise; the callers only
read it under `isArrC`). -/
def arrLenC : Option CoordTree → Nat
  | some (.node xs) => xs.length
  | _ => 0

/-- A `color` property value on the wire. -/
inductive CVal : Type where
  | str (s : String) : CVal
  | num (n : Int) : CVal
  | other : CVal

/-- The property fields the embedded code reads. -/
structure Props : Type where
  color : Option CVal := none
  history_limit : Option Int := none
  life_time : Option Int := none
  id : Option String := none

/-- A GeoJSON-shaped object: the fields of the wire payload that
`geometry-renderer.js` reads. `gtype` is the `type` field (`none` when the
object has no `type`, e.g. the internal re-dispatch wrapper). -/
inductive GeoJSON : Type where
  | mk (gtype : Option String) (coordinates : Option CoordTree)
       (geometries : Option (List GeoJSON)) (geometry : Option GeoJSON)
       (features : Option (List GeoJSON)) (properties : Option Props) : GeoJSON

def GeoJSON.gtype : GeoJSON → Option String
  | .mk t _ _ _ _ _ => t

def GeoJSON.coordinates : GeoJSON → Option CoordTree
  | .mk _ c _ _ _ _ => c

def GeoJSON.geometries : GeoJSON → Option (List GeoJSON)
  | .mk _ _ gs _ _ _ => gs

def GeoJSON.geometry : GeoJSON → Option GeoJSON
  | .mk _ _ _ g _ _ => g

def GeoJSON.features : GeoJSON → Option (List GeoJSON)
  | .mk _ _ _ _ fs _ => fs

def GeoJSON.properties : GeoJSON → Option Props
  | .mk _ _ _ _ _ p => p

/-- A GeoJSON object none of whose read fields are present (how the
renderer sees the legacy re-dispatch wrapper `{data_type:'GeoJSON', ...}`
when it takes the `data.data_type === 'GeoJSON' ? data : data.geojson`
branch on it). -/
def emptyGeo : GeoJSON := .mk none none none none none none

/-- A legacy 2-d point `{x, y}`. -/
structure Pt : Type where
  x : Int
  y : Int
deriving Repr

/-- One entry of a legacy `polygons` / `lines` vector. `points := none`
models a sub-object without a points array (accessing `.map` on it throws,
which the converter's `try`/`catch` turns into `null`). -/
structure SubShape : Type where
  id : Option String := none
  points : Option (List Pt) := none
  color : Option CVal := none
  properties : Option Props := none

/-- An inbound wire message: the fields read by either manager variant and
by the renderer. `selfGeo` is the message object itself viewed as a GeoJSON
object (the renderer uses it when `data_type === 'GeoJSON'`). -/
structure Msg : Type where
  data_type : Option String := none
  selfGeo : GeoJSON := emptyGeo
  geojson : Option GeoJSON := none
  topic : Option String := none
  history_limit : Option Int := none
  life_time : Option Int := none
  points : Option (List Pt) := none
  point : Option Pt := none
  polygons : Option (List SubShape) := none
  lines : Option (List SubShape) := none
  text : Option String := none
  position : Option Pt := none
  colorProp : Option CVal := none

/-- The record pushed onto `this.geometryData[type][topic]`:
`{data: geoJSON, color, topic}`. -/
structure StoredRec : Type where
  data : GeoJSON
  color : Option Int
  topic : String

/-- A pending `setTimeout` scheduled by `manageGeometryHistory`: the closure
captures the geometry type, the topic and the specific render-handle (which
is `none` when the drawing call returned `null`). -/
structure Timer : Type where
  gtype : String
  topic : String
  handle : Option Nat
  delaySec : Int
deriving Repr, DecidableEq

/-- The mutable state of a `GeometryRenderer`: retention maps keyed by
topic, the per-(type, topic) render-handle and record lists, the set of
destroyed handles, a fresh-handle counter, and the pending age timers. -/
structure RState : Type where
  historyLimits : String → Option Int
  lifeTimes : String → Option Int
  geometries : String → String → List (Option Nat)
  geometryData : String → String → List StoredRec
  destroyed : Nat → Bool
  nextH : Nat
  timers : List Timer

/-- Pointwise update of a one-key map. -/
def upd1 {α : Type} (f : String → α) (k : String) (v : α) : String → α :=
  fun k' => if k' = k then v else f k'

/-- Pointwise update of a two-key map. -/
def upd2 {α : Type} (f : String → String → α) (a b : String) (v : α) :
    String → String → α :=
  fun a' b' => if a' = a ∧ b' = b then v else f a' b'

/-- Renderer state right after construction. -/
def initState : RState where
  historyLimits := fun _ => none
  lifeTimes := fun _ => none
  geometries := fun _ _ => []
  geometryData := fun _ _ => []
  destroyed := fun _ => false
  nextH := 0
  timers := []

/-- `TOPIC_STYLES[topic]`, restricted to its `color` field: `some oc` when
the table has an entry for `topic`, with `oc` that entry's (possibly
absent) `color`. The `default` entry is the per-type colour table and has
no `color` field. -/
def topicStyleColor (topic : String) : Option (Option Int) :=
  if topic = "default" then some none
  else if topic = "boundary" then some (some 0x0055ff)
  else if topic = "agent" then some (some 0x00ffff)
  else if topic = "obstacle" then some (some 0xff8800)
  else if topic = "trajectory" then some (some 0x333333)
  else if topic = "observation" then some (some 0xffcc00)
  else none

/-- `TOPIC_STYLES.default[dataType]` (undefined for an unknown type or an
absent type field). -/
def defaultTypeColor (dataType : Option String) : Option Int :=
  match dataType with
  | some "Point" => some 0x00ffff
  | some "MultiPoint" => some 0x00aaff
  | some "LineString" => some 0xff0000
  | some "MultiLineString" => some 0xaa0000
  | some "Polygon" => some 0x00ff00
  | some "MultiPolygon" => some 0x00aa00
  | some "GeometryCollection" => some 0xff00ff
  | some "Feature" => some 0xffffff
  | some "FeatureCollection" => some 0xffff00
  | _ => none

/-- `GeometryRenderer.getTopicColor`: if `TOPIC_STYLES[topic]` exists its
`color` field is returned as-is (possibly `undefined`); otherwise
`TOPIC_STYLES.default[dataType] || 0xffffff`. -/
def getTopicColor (topic : String) (dataType : Option String) : Option Int :=
  match topicStyleColor topic with
  | some oc => oc
  | none => some (jsOrInt (defaultTypeColor dataType) 0xffffff)

/-- The `color` local variable after the property-extraction block in
`processGeometryData`: a `#`-prefixed or `0x`-prefixed hex string is parsed
with `parseInt(·, 16)`, a nonzero number is taken as-is; `undefined`, the
falsy values `0` and `""`, a parse failure (NaN), and any other
representation leave it undefined. -/
def colorFromProps (props : Option Props) : Option Int :=
  match props with
  | none => none
  | some p =>
    match p.color with
    | some (.str s) =>
      if strStartsWith s "#" then (parseInt16 (strDrop s 1)).map Int.ofNat
      else if strStartsWith s "0x" then (parseInt16 s).map Int.ofNat
      else none
    | some (.num n) => if n = 0 then none else some n
    | _ => none

/-- The draw colour actually used: the extracted property colour unless it
is falsy (`if (!color) color = this.getTopicColor(topic, geoJSONType)`), in
which case the topic/type colour — itself possibly `undefined`. -/
def resolveColor (g : GeoJSON) (topic : String) : Option Int :=
  match colorFromProps g.properties with
  | some c => if c = 0 then getTopicColor topic g.gtype else some c
  | none => getTopicColor topic g.gtype

/-- Whether a `drawGeoJSON<X>` call for one of the seven non-feature kinds
returns a non-null display object, from the structural null-checks at the
top of each drawing method. -/
def leafDraw (g : GeoJSON) : Bool :=
  match g.gtype with
  | some "Point" =>
    match g.coordinates with
    | some c => coordTruthy c
    | none => false
  | some "MultiPoint" => isArrC g.coordinates
  | some "LineString" => isArrC g.coordinates && decide (2 ≤ arrLenC g.coordinates)
  | some "MultiLineString" => isArrC g.coordinates
  | some "Polygon" => isArrC g.coordinates && decide (arrLenC g.coordinates ≠ 0)
  | some "MultiPolygon" => isArrC g.coordinates
  | some "GeometryCollection" => g.geometries.isSome
  | _ => false

/-- Whether the `switch` in `processGeometryData` produces a non-null
display object for `g`. A `Feature` succeeds when its `geometry` is present
and of a drawable kind; a `FeatureCollection` succeeds when `features` is
an array (the container is returned regardless of its children). -/
def drawSuccess (g : GeoJSON) : Bool :=
  match g.gtype with
  | some "Feature" =>
    match g.geometry with
    | none => false
    | some inner =>
      match inner.gtype with
      | some "Point" => leafDraw inner
      | some "MultiPoint" => leafDraw inner
      | some "LineString" => leafDraw inner
      | some "MultiLineString" => leafDraw inner
      | some "Polygon" => leafDraw inner
      | some "MultiPolygon" => leafDraw inner
      | some "GeometryCollection" => leafDraw inner
      | _ => false
  | some "FeatureCollection" => g.features.isSome
  | _ => leafDraw g

/-- The nine canonical geometry kinds the renderer's `switch` accepts. -/
def isNineType (t : String) : Bool :=
  t = "Point" || t = "MultiPoint" || t = "LineString" ||
  t = "MultiLineString" || t = "Polygon" || t = "MultiPolygon" ||
  t = "GeometryCollection" || t = "Feature" || t = "FeatureCollection"

/-- `const geoJSON = data.data_type === 'GeoJSON' ? data : data.geojson`. -/
def extractGeo (m : Msg) : Option GeoJSON :=
  if m.data_type = some "GeoJSON" then some m.selfGeo else m.geojson

/-- `const topic = data.topic || 'default'`. -/
def effTopic (m : Msg) : String :=
  jsOrStr m.topic "default"

/-- The value written to `this.lifeTimes[topic]`: top-level `life_time`,
else `geoJSON.properties.life_time`, else `0`. A pure function of the
message alone — the previously cached value is never read. -/
def resolveLT (m : Msg) (g : GeoJSON) : Int :=
  match m.life_time with
  | some v => v
  | none =>
    match g.properties with
    | some p =>
      match p.life_time with
      | some v => v
      | none => 0
    | none => 0

/-- `features[0].properties.history_limit` of a `FeatureCollection`
payload, when every link in that chain is present. -/
def fcFirstHL (g : GeoJSON) : Option Int :=
  if g.gtype = some "FeatureCollection" then
    match g.features with
    | some (f :: _) =>
      match f.properties with
      | some p => p.history_limit
      | none => none
    | _ => none
  else none

/-- The value written to `this.historyLimits[topic]`: top-level
`history_limit`, else `geoJSON.properties.history_limit`, else (for a
`FeatureCollection`) the first feature's `properties.history_limit`, else
`1`. A pure function of the message alone. -/
def resolveHL (m : Msg) (g : GeoJSON) : Int :=
  match m.history_limit with
  | some v => v
  | none =>
    match g.properties with
    | some p =>
      match p.history_limit with
      | some v => v
      | none =>
        match fcFirstHL g with
        | some v => v
        | none => 1
    | none =>
      match fcFirstHL g with
      | some v => v
      | none => 1

/-- `oldGeometry.destroy()` on a shifted-out handle: marks it destroyed
(a `null` entry destroys nothing). -/
def destroyOne (x : Option Nat) (d : Nat → Bool) : Nat → Bool :=
  match x with
  | some h => fun h' => if h' = h then true else d h'
  | none => d

/-- The eviction loop over `this.geometries[type][topic]`:
`while (length > historyLimit)` shift the oldest handle and destroy it.
Terminates when the list is short enough or empty (the source would loop
forever on a negative limit once the list is empty; no claim exercises
negative limits). Returns the surviving list and the updated
destroyed-set. -/
def dropDestroy (l : List (Option Nat)) (lim : Int) (d : Nat → Bool) :
    List (Option Nat) × (Nat → Bool) :=
  match l with
  | [] => ([], d)
  | x :: xs =>
    if lim < Int.ofNat (x :: xs).length then
      dropDestroy xs lim (destroyOne x d)
    else (x :: xs, d)

/-- The eviction loop over `this.geometryData[type][topic]`. -/
def trimData (l : List StoredRec) (lim : Int) : List StoredRec :=
  match l with
  | [] => []
  | x :: xs =>
    if lim < Int.ofNat (x :: xs).length then trimData xs lim
    else x :: xs

/-- `GeometryRenderer.manageGeometryHistory(type, topic)`: evict beyond
`this.historyLimits[topic] || 1`, then, if the topic's lifetime is
positive and the bucket is non-empty, schedule a one-shot timer closing
over the bucket's last render-handle. -/
def manageGeometryHistory (t τ : String) (s : RState) : RState :=
  let lim := jsOrInt (s.historyLimits τ) 1
  let gd := dropDestroy (s.geometries t τ) lim s.destroyed
  let ds := trimData (s.geometryData t τ) lim
  let s1 : RState :=
    { s with
      geometries := upd2 s.geometries t τ gd.1
      geometryData := upd2 s.geometryData t τ ds
      destroyed := gd.2 }
  let lt := match s1.lifeTimes τ with
    | some v => v
    | none => 0
  if 0 < lt ∧ gd.1 ≠ [] then
    { s1 with timers := s1.timers ++ [⟨t, τ, lastElemD gd.1, lt⟩] }
  else s1

/-- `GeometryRenderer.processGeometryData(data)`: extract the GeoJSON
payload, resolve the topic, overwrite the topic's lifetime and history
limit, resolve the draw colour, draw (allocating a fresh handle on
success, `null` otherwise), push handle and record, and run
`manageGeometryHistory`. Unsupported or absent `type` returns after the
policy writes, before any push. -/
def processGeometryData (m : Msg) (s : RState) : RState :=
  match extractGeo m with
  | none => s
  | some g =>
    let τ := effTopic m
    let s1 : RState :=
      { s with
        lifeTimes := upd1 s.lifeTimes τ (some (resolveLT m g))
        historyLimits := upd1 s.historyLimits τ (some (resolveHL m g)) }
    match g.gtype with
    | none => s1
    | some t =>
      if isNineType t then
        let ok := drawSuccess g
        let oh : Option Nat := if ok then some s1.nextH else none
        let r0 : StoredRec := ⟨g, resolveColor g τ, τ⟩
        let s2 : RState :=
          { s1 with
            nextH := if ok then s1.nextH + 1 else s1.nextH
            geometries := upd2 s1.geometries t τ (s1.geometries t τ ++ [oh])
            geometryData := upd2 s1.geometryData t τ (s1.geometryData t τ ++ [r0]) }
        manageGeometryHistory t τ s2
      else s1

/-- The `setTimeout` callback scheduled in `manageGeometryHistory`: if the
captured handle is non-null and not yet destroyed, destroy it, look up its
current index with `indexOf`, and splice both parallel arrays there. -/
def fireTimer (tm : Timer) (s : RState) : RState :=
  match tm.handle with
  | none => s
  | some h =>
    if s.destroyed h then s
    else
      let d' := fun h' => if h' = h then true else s.destroyed h'
      let l := s.geometries tm.gtype tm.topic
      match jsIndexOf l (some h) with
      | some i =>
        { s with
          destroyed := d'
          geometries := upd2 s.geometries tm.gtype tm.topic (spliceAt l i)
          geometryData := upd2 s.geometryData tm.gtype tm.topic
            (spliceAt (s.geometryData tm.gtype tm.topic) i) }
      | none => { s with destroyed := d' }

/-- Events of the single-threaded event loop: an inbound message, or the
firing of the `i`-th pending age timer (one-shot: it is consumed). -/
inductive Ev : Type where
  | msg (m : Msg) : Ev
  | fire (i : Nat) : Ev

/-- One event-loop step. -/
def step (s : RState) : Ev → RState
  | .msg m => processGeometryData m s
  | .fire i =>
    match s.timers.get? i with
    | some tm => fireTimer tm { s with timers := spliceAt s.timers i }
    | none => s

/-- The renderer state after a sequence of events from construction. -/
def run (evs : List Ev) : RState :=
  evs.foldl step initState

/-!
The transport layer of `src/web/websocket-manager.js`. The file contains two
manager variants: the GeoJSON-capable one (`handleMessage` dispatching on
`isGeoJSONMessage` / `isLegacyFormatMessage`) and the legacy-only one
(`handleMessage` guarded by `validateGeometryData`). Both are embedded.
-/

/-- `WebSocketManager.isGeoJSONMessage` (GeoJSON-capable variant). -/
def isGeoJSONMessage (m : Msg) : Bool :=
  m.data_type = some "GeoJSON" ||
    (match m.geojson with
     | some g =>
       match g.gtype with
       | some t => isNineType t
       | none => false
     | none => false)

/-- `WebSocketManager.isLegacyFormatMessage`. -/
def isLegacyFormatMessage (m : Msg) : Bool :=
  match m.data_type with
  | some t =>
    t = "Polygon" || t = "PolygonVector" || t = "Point2d" ||
    t = "LineString" || t = "LineStringVector" || t = "Text"
  | none => false

/-- The `{...data}` remainder copied into `properties` by the legacy
converters after `data_type`, the geometry-bearing field and `topic` are
deleted (the spread also carries `history_limit`, `life_time` and `color`
along). -/
def stripProps (m : Msg) : Props where
  color := m.colorProp
  history_limit := m.history_limit
  life_time := m.life_time
  id := none

/-- Ring auto-closing in `convertPolygonToGeoJSON`: if the ring is
non-empty and its first point differs from its last in either coordinate,
a copy of the first point is appended. -/
def closeRing (l : List (Int × Int)) : List (Int × Int) :=
  match l with
  | [] => []
  | x :: xs =>
    if (x :: xs).getLast (List.cons_ne_nil x xs) ≠ x then (x :: xs) ++ [x]
    else x :: xs

/-- A closed ring as a GeoJSON coordinates value. -/
def ringCoords (l : List (Int × Int)) : CoordTree :=
  .node (l.map fun q => .node [.leaf q.1, .leaf q.2])

/-- `WebSocketManager.convertPolygonToGeoJSON`: null unless `points` is an
array; otherwise a single-ring Polygon with the ring auto-closed and the
remaining fields as `properties`. -/
def convertPolygonToGeoJSON (m : Msg) : Option GeoJSON :=
  match m.points with
  | none => none
  | some ps =>
    let ring := closeRing (ps.map fun p => (p.x, p.y))
    some (.mk (some "Polygon") (some (.node [ringCoords ring]))
          none none none (some (stripProps m)))

/-- JS truthiness of a `color` value (`data.color || polygon.color`). -/
def cvTruthy : CVal → Bool
  | .str s => s ≠ ""
  | .num n => n ≠ 0
  | .other => true

/-- `a || b` over possibly-undefined colour fields. -/
def jsOrCV (a b : Option CVal) : Option CVal :=
  match a with
  | some c => if cvTruthy c then some c else b
  | none => b

/-- JS object spread `{base fields, ...override}`: fields present on the
override object win. -/
def mergeProps (base : Props) (o : Option Props) : Props :=
  match o with
  | none => base
  | some p =>
    { color := p.color.orElse fun _ => base.color
      history_limit := p.history_limit.orElse fun _ => base.history_limit
      life_time := p.life_time.orElse fun _ => base.life_time
      id := p.id.orElse fun _ => base.id }

/-- One Feature of `convertPolygonVectorToGeoJSON`: the sub-polygon's
auto-closed ring wrapped in a Feature whose `id` defaults to
`polygon_<index>`. `none` when the sub-object has no points array (the
`.map` access throws and the surrounding `try` returns null). -/
def polygonVectorFeature (m : Msg) (idx : Nat) (sub : SubShape) :
    Option GeoJSON :=
  match sub.points with
  | none => none
  | some ps =>
    let ring := closeRing (ps.map fun p => (p.x, p.y))
    let props : Props :=
      mergeProps
        { id := some (jsOrStr sub.id ("polygon_" ++ toString idx))
          color := jsOrCV m.colorProp sub.color }
        sub.properties
    some (.mk (some "Feature") none none
          (some (.mk (some "Polygon") (some (.node [ringCoords ring]))
                 none none none none))
          none (some props))

/-- Traverse the sub-shapes, failing (exception → null) if any feature
conversion fails. -/
def traverseFeatures (f : Nat → SubShape → Option GeoJSON) :
    Nat → List SubShape → Option (List GeoJSON)
  | _, [] => some []
  | i, s :: ss =>
    match f i s with
    | none => none
    | some g =>
      match traverseFeatures f (i + 1) ss with
      | none => none
      | some gs => some (g :: gs)

/-- `WebSocketManager.convertPolygonVectorToGeoJSON`. -/
def convertPolygonVectorToGeoJSON (m : Msg) : Option GeoJSON :=
  match m.polygons with
  | none => none
  | some [] =>
    some (.mk (some "MultiPolygon") (some (.node [])) none none none
          (some {}))
  | some subs =>
    match traverseFeatures (polygonVectorFeature m) 0 subs with
    | none => none
    | some fs =>
      some (.mk (some "FeatureCollection") none none none (some fs)
            (some (stripProps m)))

/-- `WebSocketManager.convertPointToGeoJSON`. -/
def convertPointToGeoJSON (m : Msg) : Option GeoJSON :=
  match m.point with
  | none => none
  | some p =>
    some (.mk (some "Point") (some (.node [.leaf p.x, .leaf p.y]))
          none none none (some (stripProps m)))

/-- `WebSocketManager.convertLineStringToGeoJSON` (no auto-closing). -/
def convertLineStringToGeoJSON (m : Msg) : Option GeoJSON :=
  match m.points with
  | none => none
  | some ps =>
    some (.mk (some "LineString")
          (some (ringCoords (ps.map fun p => (p.x, p.y))))
          none none none (some (stripProps m)))

/-- One Feature of `convertLineStringVectorToGeoJSON`; `id` defaults to
`line_<index>`. -/
def lineVectorFeature (m : Msg) (idx : Nat) (sub : SubShape) :
    Option GeoJSON :=
  match sub.points with
  | none => none
  | some ps =>
    let props : Props :=
      mergeProps
        { id := some (jsOrStr sub.id ("line_" ++ toString idx))
          color := jsOrCV m.colorProp sub.color }
        sub.properties
    some (.mk (some "Feature") none none
          (some (.mk (some "LineString")
                 (some (ringCoords (ps.map fun p => (p.x, p.y))))
                 none none none none))
          none (some props))

/-- `WebSocketManager.convertLineStringVectorToGeoJSON`. -/
def convertLineStringVectorToGeoJSON (m : Msg) : Option GeoJSON :=
  match m.lines with
  | none => none
  | some [] =>
    some (.mk (some "MultiLineString") (some (.node [])) none none none
          (some {}))
  | some subs =>
    match traverseFeatures (lineVectorFeature m) 0 subs with
    | none => none
    | some fs =>
      some (.mk (some "FeatureCollection") none none none (some fs)
            (some (stripProps m)))

/-- `WebSocketManager.convertTextToGeoJSON`: null when `text` is falsy or
`position` absent; otherwise a Feature wrapping a Point (the `label`
property is outside the modelled `Props` fields). -/
def convertTextToGeoJSON (m : Msg) : Option GeoJSON :=
  match m.text with
  | none => none
  | some s =>
    if s = "" then none
    else
      match m.position with
      | none => none
      | some p =>
        some (.mk (some "Feature") none none
              (some (.mk (some "Point")
                     (some (.node [.leaf p.x, .leaf p.y]))
                     none none none none))
              none (some (stripProps m)))

/-- `WebSocketManager.convertLegacyToGeoJSON`: dispatch on `data_type`. -/
def convertLegacyToGeoJSON (m : Msg) : Option GeoJSON :=
  match m.data_type with
  | some "Polygon" => convertPolygonToGeoJSON m
  | some "PolygonVector" => convertPolygonVectorToGeoJSON m
  | some "Point2d" => convertPointToGeoJSON m
  | some "LineString" => convertLineStringToGeoJSON m
  | some "LineStringVector" => convertLineStringVectorToGeoJSON m
  | some "Text" => convertTextToGeoJSON m
  | _ => none

/-- The wrapper object the GeoJSON-capable `handleMessage` re-dispatches
after a successful legacy conversion:
`{data_type:'GeoJSON', topic, history_limit, life_time, geojson}`. Its own
geo-fields (`type`, `coordinates`, ...) are all absent. -/
def legacyWrapper (m : Msg) (g : GeoJSON) : Msg where
  data_type := some "GeoJSON"
  selfGeo := emptyGeo
  geojson := some g
  topic := m.topic
  history_limit := m.history_limit
  life_time := m.life_time

/-- `WebSocketManager.handleMessage` of the GeoJSON-capable variant,
composed with the renderer: GeoJSON messages go straight to
`processGeometryData`; legacy messages are converted and re-dispatched
(dropped when conversion yields null); anything else is logged and
dropped. -/
def handleMessage (m : Msg) (s : RState) : RState :=
  if isGeoJSONMessage m then processGeometryData m s
  else if isLegacyFormatMessage m then
    match convertLegacyToGeoJSON m with
    | some g => processGeometryData (legacyWrapper m g) s
    | none => s
  else s

/-- `WebSocketManager.validateTextData` (legacy-only variant). The model
restricts coordinates to numbers, so the numeric-type checks hold whenever
the fields are present. -/
def validateTextData (m : Msg) : Bool :=
  match m.text with
  | none => false
  | some s => s ≠ "" && m.position.isSome

/-- `WebSocketManager.validatePolygonData` (legacy-only variant):
`Array.isArray(points) && points.length >= 3 && every point numeric`. -/
def validatePolygonData (m : Msg) : Bool :=
  match m.points with
  | some ps => decide (3 ≤ ps.length)
  | none => false

/-- `WebSocketManager.validatePolygonVectorData` (legacy-only variant). -/
def validatePolygonVectorData (m : Msg) : Bool :=
  m.polygons.isSome

/-- `WebSocketManager.validatePointData` (legacy-only variant). -/
def validatePointData (m : Msg) : Bool :=
  m.point.isSome

/-- `WebSocketManager.validateLineStringData` (legacy-only variant). -/
def validateLineStringData (m : Msg) : Bool :=
  match m.points with
  | some ps => decide (2 ≤ ps.length)
  | none => false

/-- `WebSocketManager.validateLineStringVectorData` (legacy-only
variant). -/
def validateLineStringVectorData (m : Msg) : Bool :=
  m.lines.isSome

/-- `WebSocketManager.validateGeometryData` (legacy-only variant). -/
def validateGeometryData (m : Msg) : Bool :=
  match m.data_type with
  | some "Text" => validateTextData m
  | some "Polygon" => validatePolygonData m
  | some "PolygonVector" => validatePolygonVectorData m
  | some "Point2d" => validatePointData m
  | some "LineString" => validateLineStringData m
  | some "LineStringVector" => validateLineStringVectorData m
  | _ => false

/-- `WebSocketManager.handleMessage` of the legacy-only variant: the raw
message reaches the renderer only when `validateGeometryData` accepts it;
otherwise it is logged and dropped with no state change. -/
def handleMessageLegacy (m : Msg) (s : RState) : RState :=
  if validateGeometryData m then processGeometryData m s else s

/-!
Reconnection backoff, from `connectWebSocket` / `reconnect` of
`src/web/websocket-manager.js`.
-/

/-- `MAX_RECONNECT_ATTEMPTS`. -/
def MAX_RECONNECT_ATTEMPTS : Nat := 5

/-- `BASE_RECONNECT_TIMEOUT` (milliseconds). -/
def BASE_RECONNECT_TIMEOUT : Nat := 1000

/-- The session state of the reconnection machine: the attempt counter,
whether a connection attempt or retry timer is outstanding, the delay of
the most recently scheduled retry, and how often the terminal
"max attempts reached" status has been reported. -/
structure WSSession : Type where
  reconnectAttempts : Nat
  outstanding : Bool
  lastDelay : Option Nat
  failureReports : Nat
deriving Repr, DecidableEq

/-- `WebSocketManager.reconnect()`: below the cap, schedule a retry after
`BASE_RECONNECT_TIMEOUT * 2 ** reconnectAttempts` and increment the
counter; at the cap, report the terminal failure status and schedule
nothing. -/
def reconnect (s : WSSession) : WSSession :=
  if s.reconnectAttempts < MAX_RECONNECT_ATTEMPTS then
    { s with
      lastDelay := some (BASE_RECONNECT_TIMEOUT * 2 ^ s.reconnectAttempts)
      reconnectAttempts := s.reconnectAttempts + 1
      outstanding := true }
  else
    { s with outstanding := false, lastDelay := none
             failureReports := s.failureReports + 1 }

/-- A connect failure (`onclose` after an unsuccessful attempt): only
possible while an attempt is outstanding; runs `reconnect`. -/
def onFail (s : WSSession) : WSSession :=
  if s.outstanding then reconnect s else s

/-- A successful open (`onopen`): resets the attempt counter to zero. -/
def onOpen (s : WSSession) : WSSession :=
  if s.outstanding then { s with reconnectAttempts := 0 } else s

/-- Session state when the first connect has been initiated. -/
def startSession : WSSession where
  reconnectAttempts := 0
  outstanding := true
  lastDelay := none
  failureReports := 0

/-- The session after `n` consecutive connect failures from the start. -/
def afterFails : Nat → WSSession
  | 0 => startSession
  | n + 1 => onFail (afterFails n)

/-!
Pending-command queue. Modelled from the spec: `WebSocketManager.send`,
`WebSocketManager.setTopics` and the pending-command queue are not present
in `src/web/websocket-manager.js` (only callers appear, e.g.
`TopicsPanel.pushSelection` calls `this.wsManager.setTopics(topicsArray)`).
Spec §4.1: when not Open a command is appended to the queue, with at most
one `set_topics` retained (a later one supersedes the earlier); on open the
queue is flushed in FIFO order.
-/

/-- Modelled from the spec: an outbound command; `set_topics` carries the
full desired-topic list, other command kinds are opaque. -/
inductive Command : Type where
  | setTopicsCmd (topics : List String) : Command
  | otherCmd (tag : String) : Command
deriving Repr, DecidableEq

/-- Whether a command is a `set_topics` command. -/
def isSetTopics : Command → Bool
  | .setTopicsCmd _ => true
  | .otherCmd _ => false

/-- Modelled from the spec: the transport session's command-queue state. -/
structure Session : Type where
  isOpen : Bool
  queue : List Command
  sent : List Command
deriving Repr, DecidableEq

/-- Modelled from the spec: `send(command)` transmits immediately when
Open; otherwise queues it, a `set_topics` first displacing any queued
`set_topics`. -/
def send (s : Session) (c : Command) : Session :=
  if s.isOpen then { s with sent := s.sent ++ [c] }
  else if isSetTopics c then
    { s with queue := s.queue.filter (fun q => !isSetTopics q) ++ [c] }
  else { s with queue := s.queue ++ [c] }

/-- Modelled from the spec: `setTopics(topics)` emits a `set_topics`
command through `send` (as `TopicsPanel.pushSelection` does). -/
def setTopics (s : Session) (ts : List String) : Session :=
  send s (.setTopicsCmd ts)

/-- Modelled from the spec: `onOpen` flushes the pending queue in FIFO
order. -/
def onOpenFlush (s : Session) : Session :=
  { s with isOpen := true, sent := s.sent ++ s.queue, queue := [] }

/-- A freshly constructed, not yet connected session. -/
def closedSession : Session where
  isOpen := false
  queue := []
  sent := []

/-!
Helper lemmas about the list primitives.
-/

theorem upd1_same {α : Type} (f : String → α) (k : String) (v : α) :
    upd1 f k v k = v := by
  simp [upd1]

theorem upd1_ne {α : Type} (f : String → α) (k k' : String) (v : α)
    (h : k' ≠ k) : upd1 f k v k' = f k' := by
  simp [upd1, h]

theorem upd2_same {α : Type} (f : String → String → α) (a b : String) (v : α) :
    upd2 f a b v a b = v := by
  simp [upd2]

theorem upd2_ne {α : Type} (f : String → String → α) (a b a' b' : String)
    (v : α) (h : ¬(a' = a ∧ b' = b)) : upd2 f a b v a' b' = f a' b' := by
  simp only [upd2, if_neg h]

theorem occ_append (x : Option Nat) (l₁ l₂ : List (Option Nat)) :
    occ x (l₁ ++ l₂) = occ x l₁ + occ x l₂ := by
  induction l₁ with
  | nil => simp [occ]
  | cons y ys ih => simp [occ, ih]; omega

theorem occ_pos_of_mem {x : Option Nat} {l : List (Option Nat)}
    (h : x ∈ l) : 1 ≤ occ x l := by
  induction l with
  | nil => cases h
  | cons y ys ih =>
    rcases List.mem_cons.mp h with h' | h'
    · simp [occ, h'.symm]
    · have := ih h'
      simp only [occ]
      omega

theorem not_mem_of_occ_eq_zero {x : Option Nat} {l : List (Option Nat)}
    (h : occ x l = 0) : x ∉ l := by
  intro hm
  have := occ_pos_of_mem hm
  omega

theorem occ_le_of_suffix {x : Option Nat} {l l' : List (Option Nat)}
    (h : ∃ pre, pre ++ l' = l) : occ x l' ≤ occ x l := by
  rcases h with ⟨pre, rfl⟩
  rw [occ_append]
  omega

theorem mem_of_suffix {x : Option Nat} {l l' : List (Option Nat)}
    (h : ∃ pre, pre ++ l' = l) (hm : x ∈ l') : x ∈ l := by
  rcases h with ⟨pre, rfl⟩
  exact List.mem_append_right pre hm

theorem length_spliceAt_pair {α β : Type} :
    ∀ (l₁ : List α) (l₂ : List β) (i : Nat), l₁.length = l₂.length →
      (spliceAt l₁ i).length = (spliceAt l₂ i).length := by
  intro l₁
  induction l₁ with
  | nil =>
    intro l₂ i h
    cases l₂ with
    | nil => rfl
    | cons b bs => simp at h
  | cons a as ih =>
    intro l₂ i h
    cases l₂ with
    | nil => simp at h
    | cons b bs =>
      cases i with
      | zero =>
        simpa using h
      | succ j =>
        simp only [spliceAt, List.length_cons]
        have := ih bs j (by simpa using h)
        omega

theorem mem_of_mem_spliceAt {α : Type} {a : α} :
    ∀ {l : List α} {i : Nat}, a ∈ spliceAt l i → a ∈ l := by
  intro l
  induction l with
  | nil => intro i h; cases h
  | cons x xs ih =>
    intro i h
    cases i with
    | zero => exact List.mem_cons_of_mem x h
    | succ j =>
      rcases List.mem_cons.mp h with h' | h'
      · exact h' ▸ List.mem_cons_self x xs
      · exact List.mem_cons_of_mem x (ih h')

theorem jsIndexOf_some_spec {x : Option Nat} :
    ∀ {l : List (Option Nat)} {i : Nat}, jsIndexOf l x = some i →
      ∃ l₁ l₂, l = l₁ ++ x :: l₂ ∧ l₁.length = i ∧ x ∉ l₁ ∧
        spliceAt l i = l₁ ++ l₂ := by
  intro l
  induction l with
  | nil => intro i h; simp [jsIndexOf] at h
  | cons y ys ih =>
    intro i h
    by_cases hy : y = x
    · refine ⟨[], ys, ?_, ?_, ?_, ?_⟩
      · simp [hy]
      · have : jsIndexOf (y :: ys) x = some 0 := by simp [jsIndexOf, hy]
        rw [this] at h
        simpa using Option.some_injective _ h
      · simp
      · have h0 : i = 0 := by
          have : jsIndexOf (y :: ys) x = some 0 := by simp [jsIndexOf, hy]
          rw [this] at h
          simpa using (Option.some_injective _ h).symm
        subst h0
        rfl
    · have hrec : (jsIndexOf ys x).map (· + 1) = some i := by
        simpa [jsIndexOf, hy] using h
      rcases Option.map_eq_some'.mp hrec with ⟨j, hj, hji⟩
      rcases ih hj with ⟨l₁, l₂, hl, hlen, hnm, hsp⟩
      refine ⟨y :: l₁, l₂, ?_, ?_, ?_, ?_⟩
      · simp [hl]
      · simp [hlen, hji.symm]
      · intro hc
        rcases List.mem_cons.mp hc with h' | h'
        · exact hy h'.symm
        · exact hnm h'
      · subst hji
        simpa [spliceAt] using hsp

theorem jsIndexOf_eq_none_iff {x : Option Nat} {l : List (Option Nat)} :
    jsIndexOf l x = none ↔ x ∉ l := by
  induction l with
  | nil => simp [jsIndexOf]
  | cons y ys ih =>
    by_cases hy : y = x
    · simp [jsIndexOf, hy]
    · simp only [jsIndexOf, if_neg hy, List.mem_cons]
      constructor
      · intro h hc
        rcases hc with h' | h'
        · exact hy h'.symm
        · exact (ih.mp (by simpa using h)) h'
      · intro h
        have : x ∉ ys := fun hc => h (Or.inr hc)
        simp [ih.mpr this]

theorem lastElemD_mem : ∀ {l : List (Option Nat)}, l ≠ [] →
    lastElemD l ∈ l := by
  intro l
  induction l with
  | nil => intro h; exact absurd rfl h
  | cons x xs ih =>
    intro _
    cases xs with
    | nil => simp [lastElemD]
    | cons y ys =>
      have := ih (by simp)
      simp only [lastElemD]
      exact List.mem_cons_of_mem x this

theorem mem_zip_left {α β : Type} {a : α} {b : β} :
    ∀ {l₁ : List α} {l₂ : List β}, (a, b) ∈ l₁.zip l₂ → a ∈ l₁ := by
  intro l₁
  induction l₁ with
  | nil => intro l₂ h; simp [List.zip] at h
  | cons x xs ih =>
    intro l₂ h
    cases l₂ with
    | nil => simp [List.zip] at h
    | cons y ys =>
      rcases List.mem_cons.mp h with h' | h'
      · have : a = x := congrArg Prod.fst h'
        exact this ▸ List.mem_cons_self x xs
      · exact List.mem_cons_of_mem x (ih h')


/-!
Lemmas about the eviction loops.
-/

theorem destroyOne_eq_true_iff (x : Option Nat) (d : Nat → Bool) (h : Nat) :
    destroyOne x d h = true ↔ x = some h ∨ d h = true := by
  cases x with
  | none =>
    simp only [destroyOne]
    constructor
    · exact Or.inr
    · rintro (hc | hc)
      · cases hc
      · exact hc
  | some h' =>
    simp only [destroyOne]
    by_cases hh : h = h'
    · subst hh
      simp
    · simp only [if_neg hh]
      constructor
      · exact Or.inr
      · rintro (hc | hc)
        · exact absurd (Option.some_injective _ hc).symm hh
        · exact hc

theorem dropDestroy_suffix :
    ∀ (l : List (Option Nat)) (lim : Int) (d : Nat → Bool),
      ∃ pre, pre ++ (dropDestroy l lim d).1 = l := by
  intro l
  induction l with
  | nil => intro lim d; exact ⟨[], rfl⟩
  | cons x xs ih =>
    intro lim d
    simp only [dropDestroy]
    split
    · obtain ⟨pre, hpre⟩ := ih lim (destroyOne x d)
      exact ⟨x :: pre, by rw [List.cons_append, hpre]⟩
    · exact ⟨[], rfl⟩

theorem dropDestroy_destroyed_mono {h : Nat} :
    ∀ (l : List (Option Nat)) (lim : Int) (d : Nat → Bool),
      d h = true → (dropDestroy l lim d).2 h = true := by
  intro l
  induction l with
  | nil => intro lim d hd; exact hd
  | cons x xs ih =>
    intro lim d hd
    simp only [dropDestroy]
    split
    · exact ih lim _ ((destroyOne_eq_true_iff x d h).mpr (Or.inr hd))
    · exact hd

theorem dropDestroy_destroyed_src {h : Nat} :
    ∀ (l : List (Option Nat)) (lim : Int) (d : Nat → Bool),
      (dropDestroy l lim d).2 h = true → d h = true ∨ some h ∈ l := by
  intro l
  induction l with
  | nil => intro lim d hd; exact Or.inl hd
  | cons x xs ih =>
    intro lim d hd
    simp only [dropDestroy] at hd
    by_cases hcond : lim < Int.ofNat (x :: xs).length
    · rw [if_pos hcond] at hd
      rcases ih lim _ hd with hd' | hm
      · rcases (destroyOne_eq_true_iff x d h).mp hd' with hx | hdh
        · exact Or.inr (by rw [hx]; exact List.mem_cons_self _ _)
        · exact Or.inl hdh
      · exact Or.inr (List.mem_cons_of_mem x hm)
    · rw [if_neg hcond] at hd
      exact Or.inl hd

theorem dropDestroy_mem_or_destroyed {h : Nat} :
    ∀ (l : List (Option Nat)) (lim : Int) (d : Nat → Bool),
      some h ∈ l →
      some h ∈ (dropDestroy l lim d).1 ∨ (dropDestroy l lim d).2 h = true := by
  intro l
  induction l with
  | nil => intro lim d hm; cases hm
  | cons x xs ih =>
    intro lim d hm
    simp only [dropDestroy]
    split
    · rcases List.mem_cons.mp hm with h' | h'
      · right
        exact dropDestroy_destroyed_mono xs lim _
          ((destroyOne_eq_true_iff x d h).mpr (Or.inl h'.symm))
      · exact ih lim _ h'
    · exact Or.inl hm

theorem dropDestroy_kept_destroyed {h : Nat} :
    ∀ (l : List (Option Nat)) (lim : Int) (d : Nat → Bool),
      occ (some h) l ≤ 1 → some h ∈ (dropDestroy l lim d).1 →
      (dropDestroy l lim d).2 h = d h := by
  intro l
  induction l with
  | nil => intro lim d _ hm; simp [dropDestroy] at hm
  | cons x xs ih =>
    intro lim d hocc hm
    simp only [dropDestroy] at hm ⊢
    by_cases hcond : lim < Int.ofNat (x :: xs).length
    · rw [if_pos hcond] at hm ⊢
      have hxs : occ (some h) xs ≤ 1 := by
        simp only [occ] at hocc
        omega
      have hrec := ih lim (destroyOne x d) hxs hm
      rw [hrec]
      have hxne : x ≠ some h := by
        intro hx
        have hmem : some h ∈ xs :=
          mem_of_suffix (dropDestroy_suffix xs lim _) hm
        have h1 : 1 ≤ occ (some h) xs := occ_pos_of_mem hmem
        simp only [occ, if_pos hx] at hocc
        omega
      cases x with
      | none => rfl
      | some h' =>
        have hne : h ≠ h' := by
          intro he
          exact hxne (by rw [he])
        simp [destroyOne, hne]
    · rw [if_neg hcond] at hm ⊢

theorem dropDestroy_trimData_length :
    ∀ (gl : List (Option Nat)) (dl : List StoredRec) (lim : Int)
      (d : Nat → Bool), gl.length = dl.length →
      (dropDestroy gl lim d).1.length = (trimData dl lim).length := by
  intro gl
  induction gl with
  | nil =>
    intro dl lim d hlen
    cases dl with
    | nil => rfl
    | cons r rs => simp at hlen
  | cons x xs ih =>
    intro dl lim d hlen
    cases dl with
    | nil => simp at hlen
    | cons r rs =>
      have hlen' : xs.length = rs.length := by simpa using hlen
      simp only [dropDestroy, trimData]
      by_cases hcond : lim < Int.ofNat (x :: xs).length
      · have hcond' : lim < Int.ofNat (r :: rs).length := by
          simpa [List.length_cons, hlen'] using hcond
        rw [if_pos hcond, if_pos hcond']
        exact ih rs lim _ hlen'
      · have hcond' : ¬ lim < Int.ofNat (r :: rs).length := by
          simpa [List.length_cons, hlen'] using hcond
        rw [if_neg hcond, if_neg hcond']
        simpa using hlen

theorem dropDestroy_length_le :
    ∀ (l : List (Option Nat)) (lim : Int) (d : Nat → Bool),
      Int.ofNat (dropDestroy l lim d).1.length ≤ max lim 0 := by
  intro l
  induction l with
  | nil =>
    intro lim d
    simp only [dropDestroy, List.length_nil]
    exact le_max_right lim 0
  | cons x xs ih =>
    intro lim d
    simp only [dropDestroy]
    by_cases hcond : lim < Int.ofNat (x :: xs).length
    · rw [if_pos hcond]
      exact ih lim _
    · rw [if_neg hcond]
      exact le_trans (not_lt.mp hcond) (le_max_left lim 0)

theorem trimData_suffix :
    ∀ (l : List StoredRec) (lim : Int), ∃ pre, pre ++ trimData l lim = l := by
  intro l
  induction l with
  | nil => intro lim; exact ⟨[], rfl⟩
  | cons x xs ih =>
    intro lim
    simp only [trimData]
    split
    · obtain ⟨pre, hpre⟩ := ih lim
      exact ⟨x :: pre, by rw [List.cons_append, hpre]⟩
    · exact ⟨[], rfl⟩

/-!
The reachability invariant of the renderer state: the two parallel bucket
lists always have equal length, render-handles are allocated below the
counter, live exactly once in exactly one bucket, and are destroyed exactly
when no bucket holds them; every pending timer's handle is either still in
the timer's own bucket or already destroyed.
-/

theorem occ_eq_zero_of_not_mem {x : Option Nat} :
    ∀ {l : List (Option Nat)}, x ∉ l → occ x l = 0 := by
  intro l
  induction l with
  | nil => intro _; rfl
  | cons y ys ih =>
    intro h
    have hy : y ≠ x := fun hc => h (hc ▸ List.mem_cons_self y ys)
    have hys : x ∉ ys := fun hc => h (List.mem_cons_of_mem y hc)
    simp [occ, hy, ih hys]

theorem mem_of_get?_eq_some {α : Type} :
    ∀ {l : List α} {i : Nat} {a : α}, l.get? i = some a → a ∈ l := by
  intro l
  induction l with
  | nil => intro i a h; simp at h
  | cons x xs ih =>
    intro i a h
    cases i with
    | zero =>
      simp only [List.get?] at h
      exact (Option.some_injective _ h) ▸ List.mem_cons_self x xs
    | succ j => exact List.mem_cons_of_mem x (ih h)

structure RInv (s : RState) : Prop where
  lenEq : ∀ t τ, (s.geometries t τ).length = (s.geometryData t τ).length
  hlt : ∀ t τ h, some h ∈ s.geometries t τ → h < s.nextH
  undest : ∀ t τ h, some h ∈ s.geometries t τ → s.destroyed h = false
  once : ∀ t τ h, occ (some h) (s.geometries t τ) ≤ 1
  fresh : ∀ h, s.nextH ≤ h → s.destroyed h = false
  excl : ∀ t τ t' τ' h, some h ∈ s.geometries t τ →
    some h ∈ s.geometries t' τ' → t = t' ∧ τ = τ'
  tmr : ∀ tm ∈ s.timers, ∀ h, tm.handle = some h →
    some h ∈ s.geometries tm.gtype tm.topic ∨ s.destroyed h = true

theorem RInv_init : RInv initState := by
  refine ⟨?_, ?_, ?_, ?_, ?_, ?_, ?_⟩ <;> intros <;> simp_all [initState, occ]

theorem RInv_policies (s : RState) (hs : RInv s) (lt : String → Option Int)
    (hl : String → Option Int) :
    RInv { s with lifeTimes := lt, historyLimits := hl } :=
  ⟨hs.lenEq, hs.hlt, hs.undest, hs.once, hs.fresh, hs.excl, hs.tmr⟩

theorem RInv_timersSub (s : RState) (hs : RInv s) (tl : List Timer)
    (hsub : ∀ tm ∈ tl, tm ∈ s.timers) :
    RInv { s with timers := tl } :=
  ⟨hs.lenEq, hs.hlt, hs.undest, hs.once, hs.fresh, hs.excl,
   fun tm htm h hh => hs.tmr tm (hsub tm htm) h hh⟩

theorem RInv_withTimer (s : RState) (hs : RInv s) (tm : Timer)
    (htm : ∀ h, tm.handle = some h →
      some h ∈ s.geometries tm.gtype tm.topic ∨ s.destroyed h = true) :
    RInv { s with timers := s.timers ++ [tm] } := by
  refine ⟨hs.lenEq, hs.hlt, hs.undest, hs.once, hs.fresh, hs.excl, ?_⟩
  intro tm' htm' h hh
  rcases List.mem_append.mp htm' with hold | hnew
  · exact hs.tmr tm' hold h hh
  · have : tm' = tm := by simpa using hnew
    subst this
    exact htm h hh

theorem RInv_push (s : RState) (hs : RInv s) (t τ : String)
    (oh : Option Nat) (nH : Nat) (r : StoredRec)
    (hcase : (oh = none ∧ nH = s.nextH) ∨
             (oh = some s.nextH ∧ nH = s.nextH + 1)) :
    RInv { s with
           nextH := nH
           geometries := upd2 s.geometries t τ (s.geometries t τ ++ [oh])
           geometryData :=
             upd2 s.geometryData t τ (s.geometryData t τ ++ [r]) } := by
  have hnle : s.nextH ≤ nH := by
    rcases hcase with ⟨_, rfl⟩ | ⟨_, rfl⟩
    · exact le_refl _
    · exact Nat.le_succ _
  have hmem : ∀ a b h, some h ∈ upd2 s.geometries t τ
      (s.geometries t τ ++ [oh]) a b →
      some h ∈ s.geometries a b ∨ (a = t ∧ b = τ ∧ oh = some h) := by
    intro a b h hm
    by_cases hab : a = t ∧ b = τ
    · rw [hab.1, hab.2, upd2_same] at hm
      rcases List.mem_append.mp hm with hold | hnew
    
      · exact Or.inl (hab.1 ▸ hab.2 ▸ hold)
      · exact Or.inr ⟨hab.1, hab.2, (List.mem_singleton.mp hnew).symm⟩
    · rw [upd2_ne _ _ _ _ _ _ hab] at hm
      exact Or.inl hm
  refine ⟨?_, ?_, ?_, ?_, ?_, ?_, ?_⟩ <;> dsimp only
  · intro a b
    by_cases hab : a = t ∧ b = τ
    · rw [hab.1, hab.2, upd2_same, upd2_same]
      simp [hs.lenEq t τ]
    · rw [upd2_ne _ _ _ _ _ _ hab, upd2_ne _ _ _ _ _ _ hab]
      exact hs.lenEq a b
  · intro a b h hm
    rcases hmem a b h hm with hold | ⟨_, _, hoh⟩
    · exact lt_of_lt_of_le (hs.hlt a b h hold) hnle
    · rcases hcase with ⟨hno, _⟩ | ⟨hsome, rfl⟩
      · rw [hno] at hoh; cases hoh
      · rw [hsome] at hoh
        have : s.nextH = h := Option.some_injective _ hoh
        omega
  · intro a b h hm
    rcases hmem a b h hm with hold | ⟨_, _, hoh⟩
    · exact hs.undest a b h hold
    · rcases hcase with ⟨hno, _⟩ | ⟨hsome, _⟩
      · rw [hno] at hoh; cases hoh
      · rw [hsome] at hoh
        have : s.nextH = h := Option.some_injective _ hoh
        exact hs.fresh h (le_of_eq this)
  · intro a b h
    by_cases hab : a = t ∧ b = τ
    · rw [hab.1, hab.2, upd2_same, occ_append]
      by_cases hoh : oh = some h
      · have hnm : some h ∉ s.geometries t τ := by
          intro hc
          rcases hcase with ⟨hno, _⟩ | ⟨hsome, _⟩
          · rw [hno] at hoh; cases hoh
          · rw [hsome] at hoh
            have heq : s.nextH = h := Option.some_injective _ hoh
            exact absurd (hs.hlt t τ h hc) (by omega)
        have h0 : occ (some h) (s.geometries t τ) = 0 :=
          occ_eq_zero_of_not_mem hnm
        simp [h0, occ, hoh]
      · have h1 : occ (some h) [oh] = 0 := by simp [occ, hoh]
        have := hs.once t τ h
        omega
    · rw [upd2_ne _ _ _ _ _ _ hab]
      exact hs.once a b h
  · intro h hh
    exact hs.fresh h (le_trans hnle hh)
  · intro a b a' b' h hm hm'
    rcases hmem a b h hm with hold | ⟨ha, hb, hoh⟩ <;>
      rcases hmem a' b' h hm' with hold' | ⟨ha', hb', hoh'⟩
    · exact hs.excl a b a' b' h hold hold'
    · exfalso
      rcases hcase with ⟨hno, _⟩ | ⟨hsome, _⟩
      · rw [hno] at hoh'; cases hoh'
      · rw [hsome] at hoh'
        have : s.nextH = h := Option.some_injective _ hoh'
        exact absurd (hs.hlt a b h hold) (by omega)
    · exfalso
      rcases hcase with ⟨hno, _⟩ | ⟨hsome, _⟩
      · rw [hno] at hoh; cases hoh
      · rw [hsome] at hoh
        have : s.nextH = h := Option.some_injective _ hoh
        exact absurd (hs.hlt a' b' h hold') (by omega)
    · exact ⟨ha.trans ha'.symm, hb.trans hb'.symm⟩
  · intro tm htm h hh
    rcases hs.tmr tm htm h hh with hold | hdest
    · left
      by_cases hab : tm.gtype = t ∧ tm.topic = τ
      · rw [hab.1, hab.2, upd2_same]
        exact List.mem_append_left _ (hab.1 ▸ hab.2 ▸ hold)
      · rw [upd2_ne _ _ _ _ _ _ hab]
        exact hold
    · exact Or.inr hdest

theorem RInv_trim (s : RState) (hs : RInv s) (t τ : String) (lim : Int) :
    RInv { s with
           geometries := upd2 s.geometries t τ
             (dropDestroy (s.geometries t τ) lim s.destroyed).1
           geometryData := upd2 s.geometryData t τ
             (trimData (s.geometryData t τ) lim)
           destroyed := (dropDestroy (s.geometries t τ) lim s.destroyed).2 } := by
  have hsuf := dropDestroy_suffix (s.geometries t τ) lim s.destroyed
  refine ⟨?_, ?_, ?_, ?_, ?_, ?_, ?_⟩ <;> dsimp only
  · intro a b
    by_cases hab : a = t ∧ b = τ
    · rw [hab.1, hab.2, upd2_same, upd2_same]
      exact dropDestroy_trimData_length _ _ _ _ (hs.lenEq t τ)
    · rw [upd2_ne _ _ _ _ _ _ hab, upd2_ne _ _ _ _ _ _ hab]
      exact hs.lenEq a b
  · intro a b h hm
    by_cases hab : a = t ∧ b = τ
    · rw [hab.1, hab.2, upd2_same] at hm
      exact hs.hlt t τ h (mem_of_suffix hsuf hm)
    · rw [upd2_ne _ _ _ _ _ _ hab] at hm
      exact hs.hlt a b h hm
  · intro a b h hm
    by_cases hab : a = t ∧ b = τ
    · rw [hab.1, hab.2, upd2_same] at hm
      rw [dropDestroy_kept_destroyed _ _ _ (hs.once t τ h) hm]
      exact hs.undest t τ h (mem_of_suffix hsuf hm)
    · rw [upd2_ne _ _ _ _ _ _ hab] at hm
      cases h2 : (dropDestroy (s.geometries t τ) lim s.destroyed).2 h with
      | false => rfl
      | true =>
        exfalso
        rcases dropDestroy_destroyed_src _ _ _ h2 with hd | hmem
        · rw [hs.undest a b h hm] at hd
          cases hd
        · exact hab ⟨(hs.excl a b t τ h hm hmem).1, (hs.excl a b t τ h hm hmem).2⟩
  · intro a b h
    by_cases hab : a = t ∧ b = τ
    · rw [hab.1, hab.2, upd2_same]
      exact le_trans (occ_le_of_suffix hsuf) (hs.once t τ h)
    · rw [upd2_ne _ _ _ _ _ _ hab]
      exact hs.once a b h
  · intro h hh
    cases h2 : (dropDestroy (s.geometries t τ) lim s.destroyed).2 h with
    | false => rfl
    | true =>
      exfalso
      rcases dropDestroy_destroyed_src _ _ _ h2 with hd | hmem
      · rw [hs.fresh h hh] at hd
        cases hd
      · exact absurd (hs.hlt t τ h hmem) (by omega)
  · intro a b a' b' h hm hm'
    have hm2 : some h ∈ s.geometries a b := by
      by_cases hab : a = t ∧ b = τ
      · rw [hab.1, hab.2, upd2_same] at hm
        exact hab.1 ▸ hab.2 ▸ mem_of_suffix hsuf hm
      · rwa [upd2_ne _ _ _ _ _ _ hab] at hm
    have hm2' : some h ∈ s.geometries a' b' := by
      by_cases hab : a' = t ∧ b' = τ
      · rw [hab.1, hab.2, upd2_same] at hm'
        exact hab.1 ▸ hab.2 ▸ mem_of_suffix hsuf hm'
      · rwa [upd2_ne _ _ _ _ _ _ hab] at hm'
    exact hs.excl a b a' b' h hm2 hm2'
  · intro tm htm h hh
    rcases hs.tmr tm htm h hh with hold | hdest
    · by_cases hab : tm.gtype = t ∧ tm.topic = τ
      · rw [hab.1, hab.2] at hold
        rcases dropDestroy_mem_or_destroyed _ lim s.destroyed hold with hk | hd
        · left
          rw [hab.1, hab.2, upd2_same]
          exact hk
        · exact Or.inr hd
      · left
        rw [upd2_ne _ _ _ _ _ _ hab]
        exact hold
    · exact Or.inr (dropDestroy_destroyed_mono _ _ _ hdest)

theorem RInv_manage (t τ : String) (s : RState) (hs : RInv s) :
    RInv (manageGeometryHistory t τ s) := by
  have base := RInv_trim s hs t τ (jsOrInt (s.historyLimits τ) 1)
  simp only [manageGeometryHistory]
  split
  · rename_i hguard
    refine RInv_withTimer _ base _ ?_
    intro h hh
    dsimp only at hh ⊢
    left
    rw [upd2_same]
    exact hh ▸ lastElemD_mem hguard.2
  · exact base

theorem RInv_fireTimer (s : RState) (hs : RInv s) (tm : Timer)
    (htm : ∀ h, tm.handle = some h →
      some h ∈ s.geometries tm.gtype tm.topic ∨ s.destroyed h = true) :
    RInv (fireTimer tm s) := by
  simp only [fireTimer]
  split
  · exact hs
  · rename_i h hh
    split
    · exact hs
    · rename_i hnd
      have hmemh : some h ∈ s.geometries tm.gtype tm.topic := by
        rcases htm h hh with hm | hd
        · exact hm
        · exact absurd hd hnd
      split
      · rename_i i hidx
        rcases jsIndexOf_some_spec hidx with ⟨l₁, l₂, hdec, hlen1, hnm1, hsp⟩
        have hocc : occ (some h) (s.geometries tm.gtype tm.topic) ≤ 1 :=
          hs.once tm.gtype tm.topic h
        have hocc0 : occ (some h) l₁ = 0 ∧ occ (some h) l₂ = 0 := by
          rw [hdec, occ_append] at hocc
          simp only [occ, eq_self_iff_true, if_true] at hocc
          omega
        have hnotins : some h ∉ spliceAt (s.geometries tm.gtype tm.topic) i := by
          rw [hsp]
          intro hc
          rcases List.mem_append.mp hc with hc1 | hc2
          · exact absurd (occ_pos_of_mem hc1) (by omega)
          · exact absurd (occ_pos_of_mem hc2) (by omega)
        have hmemsplice : ∀ h', h' ≠ h →
            some h' ∈ s.geometries tm.gtype tm.topic →
            some h' ∈ spliceAt (s.geometries tm.gtype tm.topic) i := by
          intro h' hne hm'
          rw [hdec] at hm'
          rw [hsp]
          rcases List.mem_append.mp hm' with hc1 | hc2
          · exact List.mem_append_left _ hc1
          · rcases List.mem_cons.mp hc2 with hc | hc
            · exact absurd (Option.some_injective _ hc) hne
            · exact List.mem_append_right _ hc
        refine ⟨?_, ?_, ?_, ?_, ?_, ?_, ?_⟩ <;> dsimp only
        · intro a b
          by_cases hab : a = tm.gtype ∧ b = tm.topic
          · rw [hab.1, hab.2, upd2_same, upd2_same]
            exact length_spliceAt_pair _ _ i (hs.lenEq tm.gtype tm.topic)
          · rw [upd2_ne _ _ _ _ _ _ hab, upd2_ne _ _ _ _ _ _ hab]
            exact hs.lenEq a b
        · intro a b h' hm'
          by_cases hab : a = tm.gtype ∧ b = tm.topic
          · rw [hab.1, hab.2, upd2_same] at hm'
            exact hs.hlt tm.gtype tm.topic h' (mem_of_mem_spliceAt hm')
          · rw [upd2_ne _ _ _ _ _ _ hab] at hm'
            exact hs.hlt a b h' hm'
        · intro a b h' hm'
          have hmm : some h' ∈ s.geometries a b := by
            by_cases hab : a = tm.gtype ∧ b = tm.topic
            · rw [hab.1, hab.2, upd2_same] at hm'
              exact hab.1 ▸ hab.2 ▸ mem_of_mem_spliceAt hm'
            · rwa [upd2_ne _ _ _ _ _ _ hab] at hm'
          by_cases hh' : h' = h
          · exfalso
            subst hh'
            by_cases hab : a = tm.gtype ∧ b = tm.topic
            · rw [hab.1, hab.2, upd2_same] at hm'
              exact hnotins hm'
            · exact hab ⟨(hs.excl a b tm.gtype tm.topic h' hmm hmemh).1,
                (hs.excl a b tm.gtype tm.topic h' hmm hmemh).2⟩
          · simp only [hh', if_false]
            exact hs.undest a b h' hmm
        · intro a b h'
          by_cases hab : a = tm.gtype ∧ b = tm.topic
          · rw [hab.1, hab.2, upd2_same, hsp]
            have h1 : occ (some h') (s.geometries tm.gtype tm.topic) ≤ 1 :=
              hs.once tm.gtype tm.topic h'
            rw [hdec, occ_append] at h1
            simp only [occ] at h1
            rw [occ_append]
            by_cases hcc : some h = some h' <;> simp only [hcc, if_true, if_false] at h1 <;> omega
          · rw [upd2_ne _ _ _ _ _ _ hab]
            exact hs.once a b h'
        · intro h' hh'
          have hne : h' ≠ h := by
            intro he
            subst he
            exact absurd (hs.hlt tm.gtype tm.topic h' hmemh) (by omega)
          simp only [hne, if_false]
          exact hs.fresh h' hh'
        · intro a b a' b' h' hm1 hm2
          have hr1 : some h' ∈ s.geometries a b := by
            by_cases hab : a = tm.gtype ∧ b = tm.topic
            · rw [hab.1, hab.2, upd2_same] at hm1
              exact hab.1 ▸ hab.2 ▸ mem_of_mem_spliceAt hm1
            · rwa [upd2_ne _ _ _ _ _ _ hab] at hm1
          have hr2 : some h' ∈ s.geometries a' b' := by
            by_cases hab : a' = tm.gtype ∧ b' = tm.topic
            · rw [hab.1, hab.2, upd2_same] at hm2
              exact hab.1 ▸ hab.2 ▸ mem_of_mem_spliceAt hm2
            · rwa [upd2_ne _ _ _ _ _ _ hab] at hm2
          exact hs.excl a b a' b' h' hr1 hr2
        · intro tm' htm' h' hh'
          rcases hs.tmr tm' htm' h' hh' with hold | hdest
          · by_cases hh' : h' = h
            · subst hh'
              right
              simp
            · by_cases hab : tm'.gtype = tm.gtype ∧ tm'.topic = tm.topic
              · left
                rw [hab.1, hab.2, upd2_same]
                exact hmemsplice h' hh' (hab.1 ▸ hab.2 ▸ hold)
              · left
                rw [upd2_ne _ _ _ _ _ _ hab]
                exact hold
          · right
            by_cases hh' : h' = h <;> simp [hh', hdest]
      · rename_i hidx
        exact absurd hmemh (jsIndexOf_eq_none_iff.mp hidx)

theorem RInv_step (s : RState) (hs : RInv s) (e : Ev) : RInv (step s e) := by
  cases e with
  | msg m =>
    simp only [step, processGeometryData]
    split
    · exact hs
    · rename_i g hg
      split
      · exact RInv_policies s hs _ _
      · rename_i t ht
        split
        · by_cases hok : drawSuccess g = true
          · simp only [if_pos hok]
            exact RInv_manage _ _ _
              (RInv_push _ (RInv_policies s hs _ _) _ _ _ _ _ (Or.inr ⟨rfl, rfl⟩))
          · simp only [if_neg hok]
            exact RInv_manage _ _ _
              (RInv_push _ (RInv_policies s hs _ _) _ _ _ _ _ (Or.inl ⟨rfl, rfl⟩))
        · exact RInv_policies s hs _ _
  | fire i =>
    simp only [step]
    split
    · rename_i tm hget
      refine RInv_fireTimer _
        (RInv_timersSub s hs _ (fun tm' h' => mem_of_mem_spliceAt h')) tm ?_
      intro h hh
      exact hs.tmr tm (mem_of_get?_eq_some hget) h hh
    · exact hs

theorem RInv_run (evs : List Ev) : RInv (run evs) := by
  suffices h : ∀ s, RInv s → RInv (evs.foldl step s) from h initState RInv_init
  induction evs with
  | nil => intro s hs; exact hs
  | cons e es ih => intro s hs; exact ih (step s e) (RInv_step s hs e)

/-!
Characterization lemmas for the claim theorems.
-/

theorem manage_policies (t τ : String) (s : RState) :
    (manageGeometryHistory t τ s).historyLimits = s.historyLimits ∧
    (manageGeometryHistory t τ s).lifeTimes = s.lifeTimes := by
  simp only [manageGeometryHistory]
  split <;> exact ⟨rfl, rfl⟩

theorem manage_bucket (t τ : String) (s : RState) :
    (manageGeometryHistory t τ s).geometries t τ =
      (dropDestroy (s.geometries t τ) (jsOrInt (s.historyLimits τ) 1)
        s.destroyed).1 := by
  simp only [manageGeometryHistory]
  split <;> dsimp only <;> rw [upd2_same]

theorem processGeometryData_policies (m : Msg) (s : RState) (g : GeoJSON)
    (hg : extractGeo m = some g) :
    (processGeometryData m s).historyLimits (effTopic m) =
      some (resolveHL m g) ∧
    (processGeometryData m s).lifeTimes (effTopic m) =
      some (resolveLT m g) := by
  simp only [processGeometryData, hg]
  split
  · exact ⟨upd1_same _ _ _, upd1_same _ _ _⟩
  · rename_i t ht
    split
    · rw [(manage_policies t (effTopic m) _).1, (manage_policies t (effTopic m) _).2]
      exact ⟨upd1_same _ _ _, upd1_same _ _ _⟩
    · exact ⟨upd1_same _ _ _, upd1_same _ _ _⟩

theorem jsOr_max_bound (hl : Int) : max (jsOrInt (some hl) 1) 0 ≤ max 1 hl := by
  simp only [jsOrInt]
  by_cases h : hl = 0
  · simp [h]
  · rw [if_neg h]
    rw [max_le_iff]
    constructor
    · exact le_max_right 1 hl
    · exact le_trans zero_le_one (le_max_left 1 hl)

theorem zip_splice_spec :
    ∀ (gl : List (Option Nat)) (dl : List StoredRec) (h : Nat) (r : StoredRec),
      gl.length = dl.length → occ (some h) gl ≤ 1 → (some h, r) ∈ gl.zip dl →
      ∃ i p₁ p₂, jsIndexOf gl (some h) = some i ∧
        gl.zip dl = p₁ ++ (some h, r) :: p₂ ∧
        (spliceAt gl i).zip (spliceAt dl i) = p₁ ++ p₂ := by
  intro gl
  induction gl with
  | nil => intro dl h r _ _ hm; simp [List.zip] at hm
  | cons x xs ih =>
    intro dl h r hlen hocc hm
    cases dl with
    | nil => simp [List.zip] at hm
    | cons d ds =>
      by_cases hx : x = some h
      · subst hx
        have hocc0 : occ (some h) xs = 0 := by
          simp only [occ, eq_self_iff_true, if_true] at hocc
          omega
        have hdr : d = r := by
          rcases List.mem_cons.mp hm with hhead | htail
          · exact (congrArg Prod.snd hhead).symm
          · exact absurd (occ_pos_of_mem (mem_zip_left htail)) (by omega)
        subst hdr
        refine ⟨0, [], xs.zip ds, ?_, rfl, rfl⟩
        simp [jsIndexOf]
      · have hxne : (x, d) ≠ (some h, r) := by
          intro hc
          exact hx (congrArg Prod.fst hc)
        have htail : (some h, r) ∈ xs.zip ds := by
          rcases List.mem_cons.mp hm with hhead | ht
          · exact absurd hhead (Ne.symm hxne)
          · exact ht
        have hocc' : occ (some h) xs ≤ 1 := by
          simp only [occ] at hocc
          omega
        obtain ⟨i, p₁, p₂, hidx, hz, hsp⟩ :=
          ih ds h r (by simpa using hlen) hocc' htail
        refine ⟨i + 1, (x, d) :: p₁, p₂, ?_, ?_, ?_⟩
        · simp [jsIndexOf, hx, hidx]
        · simp only [List.zip_cons_cons, hz, List.cons_append]
        · simp only [spliceAt, List.zip_cons_cons, hsp, List.cons_append]

/-!
Claim theorems.
-/

/-- The concrete legacy polygon message of claim C5: `data_type "Polygon"`,
points `[(0,0),(1,0),(1,1)]`. -/
def c5msg : Msg where
  data_type := some "Polygon"
  points := some [⟨0, 0⟩, ⟨1, 0⟩, ⟨1, 1⟩]

/-- Claim C5: for every legacy polygon message with a points array,
`convertPolygonToGeoJSON` yields a canonical Polygon with a single ring in
which the first point is appended at the end if and only if the first and
last input points are not already equal; in particular the input points
`[(0,0),(1,0),(1,1)]` yields exactly the ring `[[0,0],[1,0],[1,1],[0,0]]`. -/
theorem c5_ring_autoclose :
    (∀ (x : Int × Int) (xs : List (Int × Int)),
      ((x :: xs).getLast (List.cons_ne_nil x xs) ≠ x →
        closeRing (x :: xs) = (x :: xs) ++ [x]) ∧
      ((x :: xs).getLast (List.cons_ne_nil x xs) = x →
        closeRing (x :: xs) = x :: xs)) ∧
    convertPolygonToGeoJSON c5msg =
      some (.mk (some "Polygon")
        (some (.node [ringCoords [(0, 0), (1, 0), (1, 1), (0, 0)]]))
        none none none (some {})) := by
  constructor
  · intro x xs
    constructor
    · intro hne
      simp only [closeRing, if_pos hne]
    · intro heq
      simp only [closeRing, heq]
      simp
  · rfl

/-- Claim C5 (witness): the auto-close theorem at the concrete input
`[(0,0),(1,0),(1,1)]`, whose last point differs from its first. -/
theorem c5_ring_autoclose_witness :
    closeRing [((0 : Int), (0 : Int)), (1, 0), (1, 1)] =
      [((0 : Int), (0 : Int)), (1, 0), (1, 1)] ++ [(0, 0)] :=
  (c5_ring_autoclose.1 (0, 0) [(1, 0), (1, 1)]).1 (by decide)

/-- Claim C6 (counterexample): after exactly 5 consecutive connect
failures — the configured maximum — a further retry IS outstanding
(scheduled with delay `1000 * 2^4 = 16000` ms by the fifth failure) and no
terminal failure status has been reported yet; the claim says no further
attempt is ever scheduled at that point and that the terminal status has
been reported exactly once. -/
theorem c6_counterexample :
    (afterFails 5).outstanding = true ∧
    (afterFails 5).lastDelay = some 16000 ∧
    (afterFails 5).failureReports = 0 := by
  refine ⟨rfl, rfl, rfl⟩

/-- Claim C6 (amended): the k-th retry (k starting at 0, k < 5) is
scheduled after `BASE_RECONNECT_TIMEOUT * 2^k`; it is the 6th consecutive
failure (the initial attempt plus all 5 retries failing) after which no
further attempt is scheduled and the terminal failure status is reported
exactly once — and once no attempt is outstanding no event can fire again,
so nothing is ever scheduled or reported afterwards; a successful open
resets the attempt counter to zero. -/
theorem c6_backoff :
    (∀ k, k < 5 →
      (afterFails (k + 1)).lastDelay = some (BASE_RECONNECT_TIMEOUT * 2 ^ k) ∧
      (afterFails (k + 1)).outstanding = true) ∧
    ((afterFails 6).outstanding = false ∧ (afterFails 6).failureReports = 1 ∧
      (afterFails 6).lastDelay = none) ∧
    (∀ s : WSSession, s.outstanding = false → onFail s = s ∧ onOpen s = s) ∧
    (∀ s : WSSession, s.outstanding = true →
      (onOpen s).reconnectAttempts = 0) := by
  refine ⟨?_, ⟨rfl, rfl, rfl⟩, ?_, ?_⟩
  · intro k hk
    interval_cases k <;> exact ⟨rfl, rfl⟩
  · intro s h
    constructor <;> simp [onFail, onOpen, h]
  · intro s h
    simp [onOpen, h]

/-- Claim C6 (witness): the backoff theorem at the first retry, at a
session with no outstanding attempt, and at an open reset. -/
theorem c6_backoff_witness :
    (afterFails 1).lastDelay = some 1000 ∧
    onFail ⟨3, false, none, 1⟩ = ⟨3, false, none, 1⟩ ∧
    (onOpen ⟨3, true, none, 0⟩).reconnectAttempts = 0 :=
  ⟨(c6_backoff.1 0 (by decide)).1,
   (c6_backoff.2.2.1 ⟨3, false, none, 1⟩ rfl).1,
   c6_backoff.2.2.2 ⟨3, true, none, 0⟩ rfl⟩

/-- Claim C7: while the transport is not open, at most one `set_topics`
command is retained in the pending queue (a later one supersedes the
earlier); queuing `set_topics([a,b])` then `set_topics([c])` while
disconnected leaves exactly one queued set_topics command with topics
`[c]`, which is sent exactly once when the connection opens and the queue
is flushed. The queue itself is modelled from the spec (§4.1): it is not
present in `src/web/websocket-manager.js`, only its callers are. -/
theorem c7_set_topics_supersede :
    (∀ (s : Session) (c : Command),
      (s.queue.filter isSetTopics).length ≤ 1 →
      ((send s c).queue.filter isSetTopics).length ≤ 1) ∧
    (setTopics (setTopics closedSession ["a", "b"]) ["c"]).queue =
      [.setTopicsCmd ["c"]] ∧
    (onOpenFlush (setTopics (setTopics closedSession ["a", "b"]) ["c"])).sent =
      [.setTopicsCmd ["c"]] ∧
    (onOpenFlush (setTopics (setTopics closedSession ["a", "b"]) ["c"])).queue =
      [] := by
  refine ⟨?_, rfl, rfl, rfl⟩
  intro s c h
  simp only [send]
  split
  · exact h
  · split
    · rename_i hst
      simp only [List.filter_append, List.length_append]
      have h0 : (s.queue.filter (fun q => !isSetTopics q)).filter isSetTopics
          = [] := by
        rw [List.filter_filter]
        apply List.filter_eq_nil_iff.mpr
        intro a _
        simp [Bool.and_comm]
      rw [h0]
      simp [List.filter, hst]
    · rename_i hst
      simp only [List.filter_append, List.length_append]
      have h1 : [c].filter isSetTopics = [] := by
        simp [List.filter, hst]
      rw [h1]
      simpa using h

/-- Claim C7 (witness): the supersession theorem applied to a fresh closed
session receiving a non-set_topics command. -/
theorem c7_set_topics_supersede_witness :
    ((send closedSession (.otherCmd "ping")).queue.filter isSetTopics).length
      ≤ 1 :=
  c7_set_topics_supersede.1 closedSession (.otherCmd "ping") (by decide)

/-- Claim C9 (counterexample): style resolution is not the claimed
topic-override / per-type-default / 0xffffff chain for the literal topic
`"default"`: `TOPIC_STYLES["default"]` exists (it is the per-type default
table), so `getTopicColor` returns its absent `color` field — no colour at
all — instead of the per-type default `0x00ffff` for `Point`. -/
theorem c9_counterexample :
    getTopicColor "default" (some "Point") = none ∧
    defaultTypeColor (some "Point") = some 0x00ffff := ⟨rfl, rfl⟩

/-- Claim C9 (amended): `getTopicColor` is a pure function of
(topic, type): when the style table has an entry for the topic, that
entry's `color` field is returned as-is (for the `"default"` entry the
field is absent, so no colour results); otherwise the per-type default is
returned, falling back to `0xffffff` for unknown types. -/
theorem c9_style_resolution :
    (∀ (τ : String) (dt : Option String) (oc : Option Int),
      topicStyleColor τ = some oc → getTopicColor τ dt = oc) ∧
    (∀ (τ : String) (dt : Option String),
      topicStyleColor τ = none →
      getTopicColor τ dt = some (jsOrInt (defaultTypeColor dt) 0xffffff)) := by
  constructor
  · intro τ dt oc h
    simp [getTopicColor, h]
  · intro τ dt h
    simp [getTopicColor, h]

/-- Claim C9 (witness): the style-resolution theorem at a configured topic
and at an unconfigured one. -/
theorem c9_style_resolution_witness :
    getTopicColor "boundary" (some "Point") = some 0x0055ff ∧
    getTopicColor "lane" (some "Point") =
      some (jsOrInt (defaultTypeColor (some "Point")) 0xffffff) :=
  ⟨c9_style_resolution.1 "boundary" (some "Point") (some 0x0055ff) rfl,
   c9_style_resolution.2 "lane" (some "Point") rfl⟩

/-- A geometry whose properties carry the numeric colour 0 (claim C8). -/
def c8geo : GeoJSON :=
  .mk (some "Polygon") none none none none (some { color := some (.num 0) })

/-- Claim C8 (counterexample): a message on topic `"boundary"` whose
properties carry the numeric colour `0` does NOT draw with colour 0 — the
`if (!color)` falsy check discards it and the Style Resolver colour
`0x0055ff` is used instead; the claim says a numeric colour is used as-is
"for every such number, including 0". -/
theorem c8_counterexample :
    resolveColor c8geo "boundary" = some 0x0055ff ∧
    resolveColor c8geo "boundary" ≠ some 0 := by
  constructor
  · rfl
  · intro h
    cases h

/-- Claim C8 (amended): a `#rrggbb` hex string, a `0x`-prefixed hex string
or a numeric colour property is used as the draw colour when the parsed or
given value is nonzero; a numeric 0, a hex string parsing to 0, an absent
colour or any other representation falls back to the Style Resolver
(`getTopicColor`). -/
theorem c8_color_extraction :
    (∀ (g : GeoJSON) (τ : String) (p : Props) (n : Int),
      g.properties = some p → p.color = some (.num n) → n ≠ 0 →
      resolveColor g τ = some n) ∧
    (∀ (g : GeoJSON) (τ : String) (p : Props) (s : String) (c : Nat),
      g.properties = some p → p.color = some (.str s) →
      strStartsWith s "#" = true → parseInt16 (strDrop s 1) = some c → c ≠ 0 →
      resolveColor g τ = some (Int.ofNat c)) ∧
    (∀ (g : GeoJSON) (τ : String) (p : Props) (s : String) (c : Nat),
      g.properties = some p → p.color = some (.str s) →
      strStartsWith s "#" = false → strStartsWith s "0x" = true →
      parseInt16 s = some c → c ≠ 0 →
      resolveColor g τ = some (Int.ofNat c)) ∧
    (∀ (g : GeoJSON) (τ : String),
      colorFromProps g.properties = none ∨ colorFromProps g.properties = some 0 →
      resolveColor g τ = getTopicColor τ g.gtype) := by
  refine ⟨?_, ?_, ?_, ?_⟩
  · intro g τ p n hp hc hn
    simp [resolveColor, colorFromProps, hp, hc, hn]
  · intro g τ p s c hp hc hpre hparse hc0
    simp [resolveColor, colorFromProps, hp, hc, hpre, hparse, hc0]
  · intro g τ p s c hp hc hpre hpre2 hparse hc0
    simp [resolveColor, colorFromProps, hp, hc, hpre, hpre2, hparse, hc0]
  · intro g τ h
    rcases h with h | h <;> simp [resolveColor, h]

/-- Claim C8 (witness): the colour-extraction theorem at a nonzero numeric
colour, a `#ff8800` string, a `0x10` string, and an absent colour. -/
theorem c8_color_extraction_witness :
    resolveColor (.mk (some "Point") none none none none
      (some { color := some (.num 7) })) "t0" = some 7 ∧
    resolveColor (.mk (some "Point") none none none none
      (some { color := some (.str "#ff8800") })) "t0" =
        some (Int.ofNat 0xff8800) ∧
    resolveColor (.mk (some "Point") none none none none
      (some { color := some (.str "0x10") })) "t0" = some (Int.ofNat 0x10) ∧
    resolveColor (.mk (some "Point") none none none none none) "t0" =
      getTopicColor "t0" (some "Point") :=
  ⟨c8_color_extraction.1 _ "t0" _ 7 rfl rfl (by decide),
   c8_color_extraction.2.1 _ "t0" _ "#ff8800" 0xff8800 rfl rfl (by decide)
     (by decide) (by decide),
   c8_color_extraction.2.2.1 _ "t0" _ "0x10" 0x10 rfl rfl (by decide)
     (by decide) (by decide) (by decide),
   c8_color_extraction.2.2.2 _ "t0" (Or.inl rfl)⟩

/-- An untagged canonical Point message (claim C10). -/
def c10msg : Msg where
  data_type := some "GeoJSON"
  selfGeo := .mk (some "Point") (some (.node [.leaf 3, .leaf 4])) none none
    none none

/-- Claim C10: a geometry message with no top-level `topic` field is
processed exactly as if its topic were the literal string `"default"` —
it is stored, retention-managed and styled under topic `"default"`, so all
untagged messages of one geometry type share one bucket and one resolved
policy. -/
theorem c10_default_topic :
    ∀ (m : Msg) (s : RState), m.topic = none →
      effTopic m = "default" ∧
      processGeometryData m s =
        processGeometryData { m with topic := some "default" } s := by
  intro m s htop
  have e3 : effTopic m = "default" := by
    simp [effTopic, jsOrStr, htop]
  refine ⟨e3, ?_⟩
  have e1 : extractGeo { m with topic := some "default" } = extractGeo m := rfl
  have e2 : effTopic { m with topic := some "default" } = "default" := rfl
  have e4 : ∀ g, resolveHL { m with topic := some "default" } g =
      resolveHL m g := fun _ => rfl
  have e5 : ∀ g, resolveLT { m with topic := some "default" } g =
      resolveLT m g := fun _ => rfl
  simp only [processGeometryData, e1, e2, e3, e4, e5]

/-- Claim C10 (witness): the default-topic theorem at a concrete untagged
Point message. -/
theorem c10_default_topic_witness :
    effTopic c10msg = "default" ∧
    processGeometryData c10msg initState =
      processGeometryData { c10msg with topic := some "default" } initState :=
  c10_default_topic c10msg initState rfl

/-- A canonical Point payload with no coordinates and no properties. -/
def geoPoint : GeoJSON := .mk (some "Point") none none none none none

/-- A canonical LineString payload with no coordinates and no
properties. -/
def geoLine : GeoJSON := .mk (some "LineString") none none none none none

/-- A Point message on topic `T` with per-message `history_limit 2`
(claim C1). -/
def c1mA : Msg where
  data_type := some "GeoJSON"
  selfGeo := geoPoint
  topic := some "T"
  history_limit := some 2

/-- A LineString message on the same topic `T` with `history_limit 1`
(claim C1). -/
def c1mB : Msg where
  data_type := some "GeoJSON"
  selfGeo := geoLine
  topic := some "T"
  history_limit := some 1

/-- Claim C1 (counterexample): the retention limit is cached per TOPIC but
buckets are keyed by (type, topic), so a later message of a different
geometry type on the same topic lowers `resolvedPolicy(T).historyLimit`
without re-evicting the other type's bucket: after two Point messages with
limit 2 and one LineString message with limit 1 on topic `T`, the resolved
limit of `T` is 1 while the (Point, T) bucket still holds 2 records. -/
theorem c1_counterexample :
    (run [.msg c1mA, .msg c1mA, .msg c1mB]).historyLimits "T" = some 1 ∧
    ((run [.msg c1mA, .msg c1mA, .msg c1mB]).geometries "Point" "T").length
      = 2 := ⟨rfl, rfl⟩

/-- Claim C1 (amended): after any event sequence every (type, topic)
bucket's record list and render-handle list have equal length; and
immediately after a `processGeometryData` call, the bucket that call
touched holds at most `max 1 historyLimit` records for the limit the call
itself resolved (a limit of 0 or undefined acts as 1). The bound can later
be violated for that bucket only by a message of a different type on the
same topic lowering the topic's cached limit. -/
theorem c1_bounded_history :
    (∀ (evs : List Ev) (t τ : String),
      ((run evs).geometries t τ).length =
        ((run evs).geometryData t τ).length) ∧
    (∀ (m : Msg) (s : RState) (g : GeoJSON) (t : String),
      extractGeo m = some g → g.gtype = some t → isNineType t = true →
      Int.ofNat ((processGeometryData m s).geometries t (effTopic m)).length ≤
        max 1 (resolveHL m g)) := by
  constructor
  · intro evs t τ
    exact (RInv_run evs).lenEq t τ
  · intro m s g t hg ht hnine
    simp only [processGeometryData, hg, ht]
    rw [if_pos hnine]
    rw [manage_bucket]
    dsimp only
    rw [upd1_same]
    exact le_trans (dropDestroy_length_le _ _ _) (jsOr_max_bound _)

/-- Claim C1 (witness): the bound theorem at the concrete Point message
with limit 2 on the freshly constructed renderer. -/
theorem c1_bounded_history_witness :
    Int.ofNat ((processGeometryData c1mA initState).geometries "Point"
      "T").length ≤ max 1 (resolveHL c1mA geoPoint) :=
  c1_bounded_history.2 c1mA initState geoPoint "Point" rfl rfl rfl

/-- A Point message on topic `T` with `history_limit 5` (claim C2). -/
def c2mA : Msg where
  data_type := some "GeoJSON"
  selfGeo := geoPoint
  topic := some "T"
  history_limit := some 5

/-- A Point message on topic `T` carrying no overrides at all
(claim C2). -/
def c2mB : Msg where
  data_type := some "GeoJSON"
  selfGeo := geoPoint
  topic := some "T"

/-- A Point message on topic `T` with `life_time 9` (claim C2). -/
def c2mC : Msg where
  data_type := some "GeoJSON"
  selfGeo := geoPoint
  topic := some "T"
  life_time := some 9

/-- Claim C2 (counterexample): a message carrying no override does NOT
leave the topic's previously resolved policy unchanged — the code
unconditionally overwrites it with the constants (history_limit 1,
life_time 0): after a message with `history_limit 5` the cached limit for
`T` is 5, but one override-free message later it is 1; likewise a cached
`life_time 9` is reset to 0. -/
theorem c2_counterexample :
    (run [.msg c2mA]).historyLimits "T" = some 5 ∧
    (run [.msg c2mA, .msg c2mB]).historyLimits "T" = some 1 ∧
    (run [.msg c2mC]).lifeTimes "T" = some 9 ∧
    (run [.msg c2mC, .msg c2mB]).lifeTimes "T" = some 0 :=
  ⟨rfl, rfl, rfl, rfl⟩

/-- Claim C2 (amended): the retention policy written for a message's topic
is a pure function of the message alone — explicit per-message override,
else geometry-embedded property (for `history_limit` on a
FeatureCollection also the first feature's properties), else the constant
defaults `history_limit 1` / `life_time 0`. The previously cached value is
never consulted: the written policy is identical from any two starting
states, so an override-free message resets an existing policy to the
defaults. -/
theorem c2_policy_resolution :
    ∀ (m : Msg) (s₁ s₂ : RState) (g : GeoJSON), extractGeo m = some g →
      (processGeometryData m s₁).historyLimits (effTopic m) =
        some (resolveHL m g) ∧
      (processGeometryData m s₁).lifeTimes (effTopic m) =
        some (resolveLT m g) ∧
      (processGeometryData m s₁).historyLimits (effTopic m) =
        (processGeometryData m s₂).historyLimits (effTopic m) ∧
      (processGeometryData m s₁).lifeTimes (effTopic m) =
        (processGeometryData m s₂).lifeTimes (effTopic m) := by
  intro m s₁ s₂ g hg
  obtain ⟨h1, h2⟩ := processGeometryData_policies m s₁ g hg
  obtain ⟨h3, h4⟩ := processGeometryData_policies m s₂ g hg
  exact ⟨h1, h2, h1.trans h3.symm, h2.trans h4.symm⟩

/-- Claim C2 (witness): the policy-resolution theorem at the concrete
override-carrying message from the fresh state. -/
theorem c2_policy_resolution_witness :
    (processGeometryData c2mA initState).historyLimits "T" =
      some (resolveHL c2mA geoPoint) :=
  (c2_policy_resolution c2mA initState initState geoPoint rfl).1

/-- The invalid legacy polygon of claim C4: only two points. -/
def c4msg : Msg where
  data_type := some "Polygon"
  topic := some "T"
  points := some [⟨0, 0⟩, ⟨1, 1⟩]

/-- Claim C4 (counterexample): for the legacy message
`{data_type: "Polygon", points: [(0,0),(1,1)]}` normalization does NOT
yield null — `convertLegacyToGeoJSON` happily converts the 2-point
polygon (auto-closing its ring); the ≥3-points check exists only in the
legacy-only manager variant's validator, which the GeoJSON-capable
`handleMessage` never calls. -/
theorem c4_counterexample : (convertLegacyToGeoJSON c4msg).isSome = true :=
  rfl

/-- Claim C4 (amended): a legacy Polygon message with fewer than 3 points
is rejected by `validatePolygonData` / `validateGeometryData`, so the
legacy-only manager drops it with no state change at all; in the
GeoJSON-capable manager its normalization is non-null, yet no bucket
changes and nothing reaches the render sink either — the converted
geometry is re-dispatched in a `{data_type:'GeoJSON', geojson: ...}`
wrapper which the renderer itself extracts as the wrapper object (whose
`type` is undefined), discarding it at the unsupported-type switch after
overwriting only the topic's cached retention policy. -/
theorem c4_short_polygon :
    ∀ (m : Msg) (pts : List Pt) (s : RState),
      m.data_type = some "Polygon" → m.points = some pts → pts.length < 3 →
      m.geojson = none →
      validatePolygonData m = false ∧
      validateGeometryData m = false ∧
      handleMessageLegacy m s = s ∧
      (convertLegacyToGeoJSON m).isSome = true ∧
      (∀ t τ, (handleMessage m s).geometries t τ = s.geometries t τ ∧
        (handleMessage m s).geometryData t τ = s.geometryData t τ) := by
  intro m pts s hdt hpts hlen hgj
  have hv : validatePolygonData m = false := by
    simp only [validatePolygonData, hpts]
    exact decide_eq_false (by omega)
  have hvg : validateGeometryData m = false := by
    unfold validateGeometryData
    rw [hdt]
    exact hv
  have hlm : handleMessageLegacy m s = s := by
    simp [handleMessageLegacy, hvg]
  have hcv : (convertLegacyToGeoJSON m).isSome = true := by
    unfold convertLegacyToGeoJSON
    rw [hdt]
    show (convertPolygonToGeoJSON m).isSome = true
    unfold convertPolygonToGeoJSON
    rw [hpts]
    rfl
  have hgeo : isGeoJSONMessage m = false := by
    unfold isGeoJSONMessage
    rw [hdt, hgj]
    rfl
  have hleg : isLegacyFormatMessage m = true := by
    unfold isLegacyFormatMessage
    rw [hdt]
    rfl
  obtain ⟨g0, hg0⟩ := Option.isSome_iff_exists.mp hcv
  have hhm : handleMessage m s = processGeometryData (legacyWrapper m g0) s := by
    simp [handleMessage, hgeo, hleg, hg0]
  refine ⟨hv, hvg, hlm, hcv, ?_⟩
  intro t τ
  rw [hhm]
  exact ⟨rfl, rfl⟩

/-- Claim C4 (witness): the short-polygon theorem at the concrete 2-point
message on the fresh renderer state. -/
theorem c4_short_polygon_witness :
    validatePolygonData c4msg = false ∧
    handleMessageLegacy c4msg initState = initState ∧
    (convertLegacyToGeoJSON c4msg).isSome = true := by
  obtain ⟨h1, _, h3, h4, _⟩ :=
    c4_short_polygon c4msg [⟨0, 0⟩, ⟨1, 1⟩] initState rfl rfl (by decide) rfl
  exact ⟨h1, h3, h4⟩

/-- A Point message with `life_time 5` whose drawing fails (no
coordinates), so a null render-handle is stored (claim C3). -/
def c3msg : Msg where
  data_type := some "GeoJSON"
  selfGeo := geoPoint
  topic := some "T"
  life_time := some 5

/-- Claim C3 (counterexample): a stored record with resolved
`lifeTimeSeconds = 5 > 0` whose drawing returned null gets a timer closing
over the null handle; when that timer fires it removes nothing — the
record is still in the bucket although it was never evicted by capacity,
contradicting "removes exactly that record ... when the timer fires". -/
theorem c3_counterexample :
    ((run [.msg c3msg]).geometryData "Point" "T").length = 1 ∧
    (run [.msg c3msg]).timers = [⟨"Point", "T", none, 5⟩] ∧
    ((step (run [.msg c3msg]) (.fire 0)).geometryData "Point" "T").length
      = 1 ∧
    (step (run [.msg c3msg]) (.fire 0)).timers = [] :=
  ⟨rfl, rfl, rfl, rfl⟩

/-- Claim C3 (amended): for every pending age timer whose captured
render-handle is non-null, firing it in any reachable state either does
nothing to the buckets (when the handle was already destroyed by capacity
eviction) or removes exactly the record stored alongside that handle —
the zipped (handle, record) bucket loses precisely the pair
`(some h, r)`, every other pair and every other bucket is untouched —
regardless of how the bucket has grown or shrunk since scheduling. A
record whose drawing returned null has a null-handle timer, which removes
nothing (see the counterexample). -/
theorem c3_timer_identity :
    ∀ (evs : List Ev) (i : Nat) (tm : Timer) (h : Nat) (r : StoredRec),
      (run evs).timers.get? i = some tm → tm.handle = some h →
      ((run evs).destroyed h = true →
        (step (run evs) (.fire i)).geometries = (run evs).geometries ∧
        (step (run evs) (.fire i)).geometryData = (run evs).geometryData) ∧
      ((some h, r) ∈ ((run evs).geometries tm.gtype tm.topic).zip
          ((run evs).geometryData tm.gtype tm.topic) →
        ∃ p₁ p₂,
          ((run evs).geometries tm.gtype tm.topic).zip
              ((run evs).geometryData tm.gtype tm.topic) =
            p₁ ++ (some h, r) :: p₂ ∧
          ((step (run evs) (.fire i)).geometries tm.gtype tm.topic).zip
              ((step (run evs) (.fire i)).geometryData tm.gtype tm.topic) =
            p₁ ++ p₂ ∧
          (∀ t' τ', ¬(t' = tm.gtype ∧ τ' = tm.topic) →
            (step (run evs) (.fire i)).geometries t' τ' =
              (run evs).geometries t' τ' ∧
            (step (run evs) (.fire i)).geometryData t' τ' =
              (run evs).geometryData t' τ')) := by
  intro evs i tm h r hget hh
  have hs := RInv_run evs
  have hstep : step (run evs) (.fire i) =
      fireTimer tm { run evs with timers := spliceAt (run evs).timers i } := by
    simp only [step, hget]
  constructor
  · intro hd
    have hfix : fireTimer tm
        { run evs with timers := spliceAt (run evs).timers i } =
        { run evs with timers := spliceAt (run evs).timers i } := by
      simp only [fireTimer, hh]
      rw [if_pos]
      exact hd
    rw [hstep, hfix]
    exact ⟨rfl, rfl⟩
  · intro hmem
    have hnd : (run evs).destroyed h = false :=
      hs.undest tm.gtype tm.topic h (mem_zip_left hmem)
    obtain ⟨j, p₁, p₂, hidx, hz, hsp⟩ :=
      zip_splice_spec _ _ h r (hs.lenEq tm.gtype tm.topic)
        (hs.once tm.gtype tm.topic h) hmem
    have hne : ¬((run evs).destroyed h = true) := by
      simp [hnd]
    have hfire : fireTimer tm
        { run evs with timers := spliceAt (run evs).timers i } =
        { run evs with
          timers := spliceAt (run evs).timers i
          destroyed := fun h' => if h' = h then true else (run evs).destroyed h'
          geometries := upd2 (run evs).geometries tm.gtype tm.topic
            (spliceAt ((run evs).geometries tm.gtype tm.topic) j)
          geometryData := upd2 (run evs).geometryData tm.gtype tm.topic
            (spliceAt ((run evs).geometryData tm.gtype tm.topic) j) } := by
      simp only [fireTimer, hh]
      rw [if_neg hne]
      simp only [hidx]
    refine ⟨p₁, p₂, hz, ?_, ?_⟩
    · rw [hstep, hfire]
      dsimp only
      rw [upd2_same, upd2_same]
      exact hsp
    · intro t' τ' hnab
      rw [hstep, hfire]
      dsimp only
      rw [upd2_ne _ _ _ _ _ _ hnab, upd2_ne _ _ _ _ _ _ hnab]
      exact ⟨rfl, rfl⟩

/-- A drawable Point payload for the C3 witness. -/
def c3wgeo : GeoJSON :=
  .mk (some "Point") (some (.node [.leaf 1, .leaf 2])) none none none none

/-- A drawable Point message on topic `T` with `life_time 5` for the C3
witness. -/
def c3wmsg : Msg where
  data_type := some "GeoJSON"
  selfGeo := c3wgeo
  topic := some "T"
  life_time := some 5

/-- The record stored for `c3wmsg`. -/
def c3wrec : StoredRec := ⟨c3wgeo, some 0x00ffff, "T"⟩

/-- Claim C3 (witness): the timer-identity theorem at a concrete one-shot
trace — one drawable Point with lifetime 5 — whose single timer captures
handle 0, paired with its record. -/
theorem c3_timer_identity_witness :
    ∃ p₁ p₂,
      ((run [.msg c3wmsg]).geometries "Point" "T").zip
          ((run [.msg c3wmsg]).geometryData "Point" "T") =
        p₁ ++ (some 0, c3wrec) :: p₂ ∧
      ((step (run [.msg c3wmsg]) (.fire 0)).geometries "Point" "T").zip
          ((step (run [.msg c3wmsg]) (.fire 0)).geometryData "Point" "T") =
        p₁ ++ p₂ ∧
      (∀ t' τ', ¬(t' = "Point" ∧ τ' = "T") →
        (step (run [.msg c3wmsg]) (.fire 0)).geometries t' τ' =
          (run [.msg c3wmsg]).geometries t' τ' ∧
        (step (run [.msg c3wmsg]) (.fire 0)).geometryData t' τ' =
          (run [.msg c3wmsg]).geometryData t' τ') := by
  have h := (c3_timer_identity [.msg c3wmsg] 0 ⟨"Point", "T", some 0, 5⟩ 0
    c3wrec rfl rfl).2
  apply h
  have hz : ((run [.msg c3wmsg]).geometries "Point" "T").zip
      ((run [.msg c3wmsg]).geometryData "Point" "T") = [(some 0, c3wrec)] :=
    rfl
  rw [hz]
  exact List.mem_singleton.mpr rfl
